import Mathlib

/-!
A verification development for the `double-buffer-proxy` repository.

The Python sources under `src/dbproxy/` are shallowly embedded as Lean
definitions: JSON values become an inductive `Json`, dictionaries become
association lists (preserving insertion order, as Python dicts do),
fallible code returns `Option`/`Except`, and the asynchronous buffer
manager is modelled as a state type with its operations as pure
functions (checkpoint-task outcomes are passed in explicitly).

Where the Python would raise `TypeError` on a value of unexpected
dynamic type (e.g. iterating a non-list), the embedding reads the value
with a benign default; all theorems below exercise only type-correct
values.  Tool-use ids are modelled as strings (the wire schema's ids are
strings).

Each section names the source file it embeds.
-/

set_option maxRecDepth 10000

/-! ## JSON value model

Python request bodies are JSON dictionaries.  `Json.obj` keeps fields in
insertion order, exactly like a Python `dict`.  Numbers are modelled as
integers (the fields the proxy inspects — token counts, indices — are
integral). -/

inductive Json where
  | null : Json
  | bool (b : Bool) : Json
  | int (n : Int) : Json
  | str (s : String) : Json
  | arr (items : List Json) : Json
  | obj (fields : List (String × Json)) : Json
deriving Repr, Inhabited

/-- `dict.get(key)` — first binding wins (Python dict keys are unique). -/
def Json.get : Json → String → Option Json
  | .obj fields, key => fields.lookup key
  | _, _ => none

/-- `dict.get(key, default)`. -/
def Json.getD (j : Json) (key : String) (default : Json) : Json :=
  (j.get key).getD default

/-- `isinstance(x, str)` projection. -/
def Json.asStr : Json → Option String
  | .str s => some s
  | _ => none

/-- `isinstance(x, list)` projection. -/
def Json.asList : Json → Option (List Json)
  | .arr items => some items
  | _ => none

/-- Python truthiness of a JSON value (`if x:`). -/
def Json.truthy : Json → Bool
  | .null => false
  | .bool b => b
  | .int n => n != 0
  | .str s => s != ""
  | .arr items => !items.isEmpty
  | .obj fields => !fields.isEmpty

/-- `x.get(key) == s` for a string constant `s` (false when the value is
absent or not a string, as in Python). -/
def optStrEq (o : Option Json) (s : String) : Bool :=
  match o with
  | some (.str t) => t == s
  | _ => false

/-- `needle` is a prefix of `hay` (over character lists). -/
def listIsPrefix : List Char → List Char → Bool
  | [], _ => true
  | _ :: _, [] => false
  | c :: cs, d :: ds => c == d && listIsPrefix cs ds

/-- `needle` occurs contiguously inside `hay` (over character lists). -/
def listIsInfix (needle : List Char) : List Char → Bool
  | [] => needle.isEmpty
  | c :: tl => listIsPrefix needle (c :: tl) || listIsInfix needle tl

/-- Python `needle in hay` on strings. -/
def strContains (hay needle : String) : Bool :=
  listIsInfix needle.toList hay.toList

/-- `str.lower()` (ASCII range; the markers compared against are
ASCII). -/
def pyLower (s : String) : String :=
  String.mk (s.toList.map fun c =>
    if 65 ≤ c.toNat && c.toNat ≤ 90 then Char.ofNat (c.toNat + 32) else c)

/-! ## src/dbproxy/proxy/request_rewriter.py -/

def COMPACT_EDIT_TYPE : String := "compact_20260112"

/-- `has_compact_edit(body)` — detects a `compact_20260112` context
management edit (the deprecated edit-type signal). -/
def has_compact_edit (body : Json) : Bool :=
  match body.get "context_management" with
  | none => false
  | some ctx =>
    if !ctx.truthy then false
    else
      match (ctx.getD "edits" (.arr [])).asList with
      | some edits => edits.any fun e => optStrEq (e.get "type") COMPACT_EDIT_TYPE
      | none => false

def COMPACT_PROMPT_MARKER : String := "create a detailed summary of the conversation"

/-- `is_compact_request(body)` — marker-text detection of a Claude Code
compaction request in the final user message. -/
def is_compact_request (body : Json) : Bool :=
  match ((body.getD "messages" (.arr [])).asList).getD [] with
  | [] => false
  | messages =>
    match messages.getLast? with
    | none => false
    | some last =>
      if !optStrEq (last.get "role") "user" then false
      else
        match last.getD "content" (.str "") with
        | .str text => strContains (pyLower text) COMPACT_PROMPT_MARKER
        | .arr blocks =>
          let parts := blocks.filterMap fun block =>
            match block with
            | .obj _ =>
              if optStrEq (block.get "type") "text" then
                some (((block.getD "text" (.str "")).asStr).getD "")
              else none
            | .str s => some s
            | _ => none
          strContains (pyLower (String.intercalate " " parts)) COMPACT_PROMPT_MARKER
        | _ => false

/-- `has_compaction_block(body)` — any message content block of type
`compaction`. -/
def has_compaction_block (body : Json) : Bool :=
  (((body.getD "messages" (.arr [])).asList).getD []).any fun msg =>
    match msg.get "content" with
    | some (.arr blocks) =>
        blocks.any fun block =>
          match block with
          | .obj _ => optStrEq (block.get "type") "compaction"
          | _ => false
    | _ => false

/-- Rewrite one content block: `compaction` blocks become text blocks
(`strip_compaction_blocks` inner loop). -/
def stripCompactionBlock (block : Json) : Json :=
  match block with
  | .obj _ =>
    if optStrEq (block.get "type") "compaction" then
      let compaction_text := ((block.getD "content" (.str "")).asStr).getD ""
      .obj [("type", .str "text"),
            ("text", .str (if compaction_text != "" then compaction_text
                           else "[conversation summary]"))]
    else block
  | _ => block

/-- Replace the value at `key` in an object, leaving other fields as-is. -/
def Json.setField (j : Json) (key : String) (v : Json) : Json :=
  match j with
  | .obj fields => .obj (fields.map fun kv => if kv.1 = key then (kv.1, v) else kv)
  | _ => j

/-- `strip_compaction_blocks(body)` — convert compaction blocks in
messages to text blocks before forwarding. -/
def strip_compaction_blocks (body : Json) : Json :=
  if !has_compaction_block body then body
  else
    match body.get "messages" with
    | some (.arr messages) =>
      body.setField "messages" (.arr (messages.map fun msg =>
        match msg.get "content" with
        | some (.arr blocks) =>
            msg.setField "content" (.arr (blocks.map stripCompactionBlock))
        | _ => msg))
    | _ => body

/-- Remove a key from an object (`del body[key]`). -/
def Json.delField (j : Json) (key : String) : Json :=
  match j with
  | .obj fields => .obj (fields.filter fun kv => kv.1 != key)
  | _ => j

/-- `strip_compact_edit(body)` — drop `compact_20260112` edits from the
`context_management.edits` list; drop the whole key if nothing remains. -/
def strip_compact_edit (body : Json) : Json :=
  match body.get "context_management" with
  | none => body
  | some ctx =>
    if !ctx.truthy then body
    else
      match ctx.get "edits" with
      | none => body
      | some editsJson =>
        if !editsJson.truthy then body
        else
          match editsJson.asList with
          | none => body
          | some edits =>
            let filtered := edits.filter fun e =>
              !optStrEq (e.get "type") COMPACT_EDIT_TYPE
            if filtered.length = edits.length then body
            else if filtered.isEmpty then body.delField "context_management"
            else body.setField "context_management"
                   (ctx.setField "edits" (.arr filtered))

/-! ## src/dbproxy/buffer/checkpoint.py — anchor selection -/

/-- Association-list update with Python-dict semantics: replace the
value if the key exists, else append. -/
def upsert (l : List (String × Nat)) (key : String) (v : Nat) : List (String × Nat) :=
  if l.any (fun kv => kv.1 == key) then
    l.map fun kv => if kv.1 == key then (key, v) else kv
  else l ++ [(key, v)]

/-- The `tool_use` id → message-index map built by
`find_checkpoint_anchor`; `none` models the `KeyError` raised when a
`tool_use` block has no string `id`. -/
def toolUsePositions (messages : List Json) : Option (List (String × Nat)) :=
  messages.enum.foldl
    (fun acc (im : Nat × Json) =>
      match acc with
      | none => none
      | some positions =>
        let (i, msg) := im
        match msg.get "content" with
        | some (.arr blocks) =>
          blocks.foldl
            (fun acc' block =>
              match acc' with
              | none => none
              | some ps =>
                match block with
                | .obj _ =>
                  if optStrEq (block.get "type") "tool_use" then
                    match block.get "id" with
                    | some (.str tid) => some (upsert ps tid i)
                    | _ => none
                  else some ps
                | _ => some ps)
            (some positions)
        | _ => some positions)
    (some [])

/-- The collected `tool_result.tool_use_id` references; a `tool_result`
without the key contributes `""` (the `.get` default). -/
def toolResultIds (messages : List Json) : List String :=
  messages.foldl
    (fun acc msg =>
      match msg.get "content" with
      | some (.arr blocks) =>
        blocks.foldl
          (fun acc' block =>
            match block with
            | .obj _ =>
              if optStrEq (block.get "type") "tool_result" then
                acc' ++ [(((block.getD "tool_use_id" (.str "")).asStr).getD "")]
              else acc'
            | _ => acc')
          acc
      | _ => acc)
    []

/-- `find_checkpoint_anchor(messages)`: if every `tool_use` id has a
matching `tool_result`, the anchor is `len(messages)`; otherwise it is
the recorded message index of the minimal unresolved id.  `none` models
the `KeyError` on a `tool_use` block without a string `id`. -/
def find_checkpoint_anchor (messages : List Json) : Option Nat :=
  match toolUsePositions messages with
  | none => none
  | some positions =>
    let resultIds := toolResultIds messages
    let unresolved := positions.filter fun kv => !(resultIds.contains kv.1)
    match unresolved with
    | [] => some messages.length
    | u :: us => some ((us.map Prod.snd).foldl min u.2)

/-! ## Python rendering primitives: `str()`, `repr()`, `json.dumps` -/

/-- Lowercase hex digit. -/
def hexDigit (n : Nat) : Char :=
  if n < 10 then Char.ofNat (48 + n) else Char.ofNat (87 + n)

/-- Four lowercase hex digits (`\uXXXX` payload). -/
def hex4 (n : Nat) : String :=
  String.mk [hexDigit (n / 4096 % 16), hexDigit (n / 256 % 16),
             hexDigit (n / 16 % 16), hexDigit (n % 16)]

/-- Two lowercase hex digits (`\xXX` payload). -/
def hex2 (n : Nat) : String :=
  String.mk [hexDigit (n / 16 % 16), hexDigit (n % 16)]

/-- `json.dumps` escaping of one character (`ensure_ascii=True`):
`0x20`–`0x7e` except `"` and `\` pass through, the rest is escaped,
astral characters as surrogate pairs. -/
def jsonEscapeChar (c : Char) : String :=
  if c = '"' then "\\\""
  else if c = '\\' then "\\\\"
  else if c = '\n' then "\\n"
  else if c = '\r' then "\\r"
  else if c = '\t' then "\\t"
  else if c.toNat = 8 then "\\b"
  else if c.toNat = 12 then "\\f"
  else if 0x20 ≤ c.toNat && c.toNat ≤ 0x7e then String.mk [c]
  else if c.toNat < 0x10000 then "\\u" ++ hex4 c.toNat
  else
    let v := c.toNat - 0x10000
    "\\u" ++ hex4 (0xd800 + v / 1024) ++ "\\u" ++ hex4 (0xdc00 + v % 1024)

/-- A `json.dumps` string literal. -/
def jsonQuote (s : String) : String :=
  "\"" ++ String.join (s.toList.map jsonEscapeChar) ++ "\""

/-- Code-point-lexicographic `<=` on strings (Python string order). -/
def strLe (a b : String) : Bool :=
  go a.toList b.toList
where
  go : List Char → List Char → Bool
    | [], _ => true
    | _ :: _, [] => false
    | c :: cs, d :: ds =>
      if c.toNat < d.toNat then true
      else if d.toNat < c.toNat then false
      else go cs ds

/-- Stable insertion sort by key (Python `sorted` on unique dict keys). -/
def insertByKey (kv : String × String) : List (String × String) → List (String × String)
  | [] => [kv]
  | hd :: tl => if strLe kv.1 hd.1 then kv :: hd :: tl else hd :: insertByKey kv tl

def sortByKey (l : List (String × String)) : List (String × String) :=
  l.foldr insertByKey []

/-- `json.dumps(x, separators=(itemSep, kvSep), sort_keys=sortKeys)`. -/
def pyDumps (itemSep kvSep : String) (sortKeys : Bool) : Json → String
  | .null => "null"
  | .bool true => "true"
  | .bool false => "false"
  | .int n => toString n
  | .str s => jsonQuote s
  | .arr items =>
    "[" ++ String.intercalate itemSep
      (items.attach.map fun x => pyDumps itemSep kvSep sortKeys x.1) ++ "]"
  | .obj fields =>
    let rendered := fields.attach.map fun kv => (kv.1.1, pyDumps itemSep kvSep sortKeys kv.1.2)
    let fs := if sortKeys then sortByKey rendered else rendered
    "\x7b" ++ String.intercalate itemSep
      (fs.map fun kv => jsonQuote kv.1 ++ kvSep ++ kv.2) ++ "\x7d"
decreasing_by
  · have := List.sizeOf_lt_of_mem x.2
    simp only [Json.arr.sizeOf_spec]
    omega
  · have h1 := List.sizeOf_lt_of_mem kv.2
    obtain ⟨⟨a, b⟩, hm⟩ := kv
    simp only [Json.obj.sizeOf_spec]
    simp only [Prod.mk.sizeOf_spec] at h1
    omega

/-- `repr()` escaping of one character inside a string literal.
Controls are escaped as in CPython; other characters pass through (the
model treats all non-control characters as printable). -/
def pyReprChar (quote : Char) (c : Char) : String :=
  if c = '\\' then "\\\\"
  else if c = quote then "\\" ++ String.mk [quote]
  else if c = '\n' then "\\n"
  else if c = '\r' then "\\r"
  else if c = '\t' then "\\t"
  else if c.toNat < 0x20 || c.toNat = 0x7f then "\\x" ++ hex2 c.toNat
  else String.mk [c]

/-- `repr()` of a Python string: single quotes unless the string holds a
`'` and no `"`. -/
def pyStrRepr (s : String) : String :=
  let quote := if s.toList.contains '\'' && !(s.toList.contains '"') then '"' else '\''
  String.mk [quote] ++ String.join (s.toList.map (pyReprChar quote)) ++ String.mk [quote]

/-- Python `repr()` of a JSON-shaped value (dicts/lists render with
`', '` / `': '` separators, strings quoted). -/
def pyRepr : Json → String
  | .null => "None"
  | .bool true => "True"
  | .bool false => "False"
  | .int n => toString n
  | .str s => pyStrRepr s
  | .arr items =>
    "[" ++ String.intercalate ", " (items.attach.map fun x => pyRepr x.1) ++ "]"
  | .obj fields =>
    "\x7b" ++ String.intercalate ", "
      (fields.attach.map fun kv => pyStrRepr kv.1.1 ++ ": " ++ pyRepr kv.1.2) ++ "\x7d"
decreasing_by
  · have := List.sizeOf_lt_of_mem x.2
    simp only [Json.arr.sizeOf_spec]
    omega
  · have h1 := List.sizeOf_lt_of_mem kv.2
    obtain ⟨⟨a, b⟩, hm⟩ := kv
    simp only [Json.obj.sizeOf_spec]
    simp only [Prod.mk.sizeOf_spec] at h1
    omega

/-- Python `str()` of a JSON-shaped value (`repr` except on strings). -/
def pyStr : Json → String
  | .str s => s
  | j => pyRepr j

/-- Python slice `s[:n]` (by code points, like `len`). -/
def pyTake (s : String) (n : Nat) : String :=
  String.mk (s.toList.take n)

/-! ## src/dbproxy/buffer/swap.py -/

/-- `_summarize_tool_result(block)` — brief WAL rendering of a
`tool_result` block: list content joined from its text sub-blocks (each
truncated to 200 chars), string-ish content via `str()`, the whole
truncated to 300 chars, prefixed with `[tool_result]` or
`[tool_result ERROR]`. -/
def summarizeToolResult (block : Json) : String :=
  let result_content := block.getD "content" (.str "")
  let is_error := (block.getD "is_error" (.bool false)).truthy
  let rendered :=
    match result_content with
    | .arr items =>
      let texts := items.filterMap fun b =>
        match b with
        | .obj _ =>
          if optStrEq (b.get "type") "text" then
            let t := ((b.getD "text" (.str "")).asStr).getD ""
            some (if t.length > 200 then pyTake t 200 ++ "..." else t)
          else none
        | _ => none
      String.intercalate " " texts
    | other => pyStr other
  let rendered := if rendered.length > 300 then pyTake rendered 300 ++ "..." else rendered
  let prefixTag := if is_error then "[tool_result ERROR]" else "[tool_result]"
  prefixTag ++ " " ++ rendered

/-- The candidate argument names probed for a `tool_use` brief. -/
def briefKeys : List String := ["file_path", "path", "pattern", "command", "query", "url"]

/-- The `brief` computation inside `_serialize_message` for a
`tool_use` block: first present non-empty string among `briefKeys`,
else compact JSON of the input; truncated to 150 chars.  Empty iff the
input is not a dict. -/
def toolUseBrief (inp : Json) : String :=
  match inp with
  | .obj _ =>
    let fromKey := briefKeys.foldl
      (fun acc key =>
        match acc with
        | some _ => acc
        | none =>
          match inp.get key with
          | some (.str v) => if v != "" then some v else none
          | _ => none)
      none
    let brief := match fromKey with
      | some v => v
      | none => pyDumps "," ":" false inp
    if brief.length > 150 then pyTake brief 150 ++ "..." else brief
  | _ => ""

/-- `_serialize_message(msg)` — `[role]` header plus rendered content
blocks, for WAL inclusion. -/
def serialize_message (msg : Json) : String :=
  let role := pyStr (msg.getD "role" (.str "unknown"))
  let content := msg.getD "content" (.str "")
  match content with
  | .str s => "[" ++ role ++ "]\n" ++ s
  | .arr blocks =>
    let parts := blocks.map fun block =>
      match block with
      | .str s => s
      | .obj _ =>
        if optStrEq (block.get "type") "text" then
          ((block.getD "text" (.str "")).asStr).getD ""
        else if optStrEq (block.get "type") "tool_use" then
          let name := pyStr (block.getD "name" (.str "?"))
          let brief := toolUseBrief (block.getD "input" (.obj []))
          if brief != "" then "[tool_use: " ++ name ++ "(" ++ brief ++ ")]"
          else "[tool_use: " ++ name ++ "]"
        else if optStrEq (block.get "type") "tool_result" then
          summarizeToolResult block
        else if optStrEq (block.get "type") "compaction" then
          "[prior compaction summary]"
        else
          "[" ++ pyStr (block.getD "type" (.str "unknown")) ++ " block]"
      | other => pyStr other
    "[" ++ role ++ "]\n" ++ String.intercalate "\n" parts
  | other => "[" ++ role ++ "]\n" ++ pyStr other

/-- The fixed preamble sentence of the compaction body. -/
def SWAP_PREAMBLE : String :=
  "This is a summary of the conversation so far. " ++
  "All prior context has been incorporated below. " ++
  "Respond normally to the user's next message."

/-- The fixed WAL introduction sentence (reproduced byte-for-byte from
the source, including its mojibake dash). -/
def WAL_NOTE : String :=
  "The following conversation continued after the summary above was generated. " ++
  "This is what was being discussed most recently. " ++
  "Tool results are abbreviated â€” re-read files if you need full contents. " ++
  "Continue from where this conversation left off."

/-- `format_compaction_with_wal(checkpoint_content, wal_messages)` —
checkpoint summary plus serialized WAL inside a `<context_summary>`
frame; the `<recent_activity>` section only when the WAL is non-empty. -/
def format_compaction_with_wal (checkpoint_content : String)
    (wal_messages : List Json) : String :=
  let parts : List String :=
    ["<context_summary>", SWAP_PREAMBLE, "", checkpoint_content]
  let parts :=
    if !wal_messages.isEmpty then
      let serialized := String.intercalate "\n\n" (wal_messages.map serialize_message)
      parts ++ ["", WAL_NOTE, "<recent_activity>", serialized, "</recent_activity>"]
    else parts
  String.intercalate "\n" (parts ++ ["</context_summary>"])

/-! ## SHA-256 (for `hashlib.sha256(...).hexdigest()`)

A direct executable transcription of FIPS 180-4 over `Nat` with
explicit `% 2^32` reduction. -/

def w32 (n : Nat) : Nat := n % 4294967296

def rotr32 (x b : Nat) : Nat := w32 ((x >>> b) ||| (x <<< (32 - b)))

def sha256K : List Nat :=
  [1116352408, 1899447441, 3049323471, 3921009573, 961987163,
   1508970993, 2453635748, 2870763221, 3624381080, 310598401,
   607225278, 1426881987, 1925078388, 2162078206, 2614888103,
   3248222580, 3835390401, 4022224774, 264347078, 604807628,
   770255983, 1249150122, 1555081692, 1996064986, 2554220882,
   2821834349, 2952996808, 3210313671, 3336571891, 3584528711,
   113926993, 338241895, 666307205, 773529912, 1294757372,
   1396182291, 1695183700, 1986661051, 2177026350, 2456956037,
   2730485921, 2820302411, 3259730800, 3345764771, 3516065817,
   3600352804, 4094571909, 275423344, 430227734, 506948616,
   659060556, 883997877, 958139571, 1322822218, 1537002063,
   1747873779, 1955562222, 2024104815, 2227730452, 2361852424,
   2428436474, 2756734187, 3204031479, 3329325298]

def sha256H0 : List Nat :=
  [1779033703, 3144134277, 1013904242, 2773480762,
   1359893119, 2600822924, 528734635, 1541459225]

/-- UTF-8 encoding of one character (Python `str.encode()`). -/
def utf8Char (c : Char) : List Nat :=
  let n := c.toNat
  if n < 0x80 then [n]
  else if n < 0x800 then [0xc0 ||| (n >>> 6), 0x80 ||| (n &&& 0x3f)]
  else if n < 0x10000 then
    [0xe0 ||| (n >>> 12), 0x80 ||| ((n >>> 6) &&& 0x3f), 0x80 ||| (n &&& 0x3f)]
  else
    [0xf0 ||| (n >>> 18), 0x80 ||| ((n >>> 12) &&& 0x3f),
     0x80 ||| ((n >>> 6) &&& 0x3f), 0x80 ||| (n &&& 0x3f)]

def utf8Bytes (s : String) : List Nat :=
  (s.toList.map utf8Char).flatten

/-- SHA-256 message padding. -/
def sha256Pad (msg : List Nat) : List Nat :=
  let L := msg.length
  let k := (119 - (L % 64)) % 64
  let bitLen := L * 8
  msg ++ [0x80] ++ List.replicate k 0 ++
    ([56, 48, 40, 32, 24, 16, 8, 0].map fun i => (bitLen >>> i) &&& 255)

/-- Split into 64-byte blocks (structural recursion on a fuel bounded
by the length, so the definition reduces in the kernel). -/
def chunks64Go : Nat → List Nat → List (List Nat)
  | _, [] => []
  | 0, _ :: _ => []
  | fuel + 1, b :: rest => (b :: rest).take 64 :: chunks64Go fuel ((b :: rest).drop 64)

def chunks64 (bytes : List Nat) : List (List Nat) :=
  chunks64Go bytes.length bytes

/-- Big-endian 32-bit words of a 64-byte block. -/
def blockWords : List Nat → List Nat
  | b0 :: b1 :: b2 :: b3 :: rest =>
    ((b0 <<< 24) ||| (b1 <<< 16) ||| (b2 <<< 8) ||| b3) :: blockWords rest
  | _ => []

/-- Message-schedule extension from 16 to 64 words.  `w` is kept in
reverse order (newest first). -/
def sha256Extend : Nat → List Nat → List Nat
  | 0, wrev => wrev
  | n + 1, wrev =>
    let w15 := wrev.getD 14 0
    let w2 := wrev.getD 1 0
    let w16 := wrev.getD 15 0
    let w7 := wrev.getD 6 0
    let s0 := (rotr32 w15 7) ^^^ (rotr32 w15 18) ^^^ (w15 >>> 3)
    let s1 := (rotr32 w2 17) ^^^ (rotr32 w2 19) ^^^ (w2 >>> 10)
    sha256Extend n (w32 (w16 + s0 + w7 + s1) :: wrev)

/-- One compression round. -/
def sha256Round (st : List Nat) (kw : Nat × Nat) : List Nat :=
  match st with
  | [a, b, c, d, e, f, g, h] =>
    let S1 := (rotr32 e 6) ^^^ (rotr32 e 11) ^^^ (rotr32 e 25)
    let ch := (e &&& f) ^^^ ((0xffffffff ^^^ e) &&& g)
    let temp1 := w32 (h + S1 + ch + kw.1 + kw.2)
    let S0 := (rotr32 a 2) ^^^ (rotr32 a 13) ^^^ (rotr32 a 22)
    let maj := (a &&& b) ^^^ (a &&& c) ^^^ (b &&& c)
    let temp2 := w32 (S0 + maj)
    [w32 (temp1 + temp2), a, b, c, w32 (d + temp1), e, f, g]
  | other => other

/-- Compress one 64-byte block into the running hash state. -/
def sha256Block (hstate : List Nat) (block : List Nat) : List Nat :=
  let w := (sha256Extend 48 (blockWords block).reverse).reverse
  let final := (sha256K.zip w).foldl sha256Round hstate
  (hstate.zip final).map fun ab => w32 (ab.1 + ab.2)

/-- Eight lowercase hex digits of a 32-bit word. -/
def hex8 (n : Nat) : String :=
  hex4 (n / 65536) ++ hex4 (n % 65536)

/-- `hashlib.sha256(bytes).hexdigest()`. -/
def sha256Hex (msgBytes : List Nat) : String :=
  let finalState := (chunks64 (sha256Pad msgBytes)).foldl sha256Block sha256H0
  String.join (finalState.map hex8)

/-- `hashlib.sha256(s.encode()).hexdigest()`. -/
def sha256HexOfString (s : String) : String :=
  sha256Hex (utf8Bytes s)

/-! ## src/dbproxy/identity/fingerprint.py -/

def SYSTEM_PREFIX_LENGTH : Nat := 1000

/-- Characters of the regex class `[0-9a-f-]`. -/
def sessionClassChar (c : Char) : Bool :=
  (48 ≤ c.toNat && c.toNat ≤ 57) || (97 ≤ c.toNat && c.toNat ≤ 102) || c = '-'

/-- `a` ends with `b`. -/
def listEndsWith (a b : List Char) : Bool :=
  listIsPrefix b.reverse a.reverse

/-- `re.search(r"_session_([0-9a-f-]+)$", s)`, returning the captured
group.  Because `_` is outside the class, a match forces everything
after the final `_session_` (up to the `$` position — end of string or
just before one trailing newline) to lie in the class, so the group is
exactly the maximal class-character suffix, and it must be preceded by
`_session_`. -/
def sessionSearch (s : String) : Option String :=
  let cs := s.toList
  let cs := if cs.getLast? = some '\n' then cs.dropLast else cs
  let g := (cs.reverse.takeWhile sessionClassChar).reverse
  if g.isEmpty then none
  else
    let stem := cs.take (cs.length - g.length)
    if listEndsWith stem "_session_".toList then some (String.mk g) else none

/-- `_extract_session_id(body)` — session UUID from
`metadata.user_id`. -/
def extract_session_id (body : Json) : Option String :=
  match body.get "metadata" with
  | some (.obj fields) =>
    match (Json.obj fields).get "user_id" with
    | some (.str user_id) => sessionSearch user_id
    | _ => none
  | _ => none

/-- The `parts` list of `_fallback_fingerprint(body)`: the first 1000
characters of the system prompt (a list-typed system serialized with
keys sorted), then the first user message's content (a list serialized
with keys sorted). -/
def fallbackParts (body : Json) : List String :=
  let systemParts :=
    match body.get "system" with
    | some (.str s) => [pyTake s SYSTEM_PREFIX_LENGTH]
    | some (.arr l) => [pyTake (pyDumps ", " ": " true (.arr l)) SYSTEM_PREFIX_LENGTH]
    | _ => []
  let messages := (((body.getD "messages" (.arr [])).asList).getD [])
  let userParts :=
    match messages.find? (fun msg => optStrEq (msg.get "role") "user") with
    | some msg =>
      match msg.getD "content" (.str "") with
      | .str s => [s]
      | .arr l => [pyDumps ", " ": " true (.arr l)]
      | _ => []
    | none => []
  systemParts ++ userParts

/-- `_fallback_fingerprint(body)` — SHA-256 of the joined parts. -/
def fallback_fingerprint (body : Json) : String :=
  sha256HexOfString (String.intercalate "\n---\n" (fallbackParts body))

/-- `compute_fingerprint(body)` — session id when present, else the
fallback hash. -/
def compute_fingerprint (body : Json) : String :=
  match extract_session_id body with
  | some session_id => session_id
  | none => fallback_fingerprint body

/-! ## src/dbproxy/proxy/sse_parser.py

The parser is fed decoded text; we model text as `List Char`.  `feed`
consumes every complete (newline-terminated) line, exactly like the
`while "\n" in buffer` loop. -/

structure SSEEvent where
  event : List Char := []
  data : List Char := []
  id : List Char := []
  retry : Option Int := none
deriving Repr, DecidableEq, Inhabited

/-- `SSEEvent.is_empty`. -/
def SSEEvent.is_empty (e : SSEEvent) : Bool :=
  e.event.isEmpty && e.data.isEmpty

def isPyDigit (c : Char) : Bool := 48 ≤ c.toNat && c.toNat ≤ 57

def digitVal (c : Char) : Nat := c.toNat - 48

/-- Python whitespace stripped by `int(str)`. -/
def isPyWs (c : Char) : Bool :=
  c = ' ' || c = '\t' || c = '\n' || c = '\r' || c.toNat = 11 || c.toNat = 12

/-- Digit-group parser for `int()`: digits with single underscores
strictly between digits (first character must already have been a
digit). -/
def pyIntGo (acc : Nat) : List Char → Option Nat
  | [] => some acc
  | c :: tl =>
    if c = '_' then
      match tl with
      | d :: tl2 => if isPyDigit d then pyIntGo (acc * 10 + digitVal d) tl2 else none
      | [] => none
    else if isPyDigit c then pyIntGo (acc * 10 + digitVal c) tl else none

/-- Python `int(value)` on a string: optional surrounding whitespace,
optional sign, ASCII digits with single underscores between them.
(Non-ASCII digit alphabets accepted by CPython are out of model.) -/
def pyInt (cs : List Char) : Option Int :=
  let cs1 := cs.dropWhile isPyWs
  let cs2 := (cs1.reverse.dropWhile isPyWs).reverse
  let neg := listIsPrefix ['-'] cs2
  let body :=
    if listIsPrefix ['-'] cs2 || listIsPrefix ['+'] cs2 then cs2.drop 1 else cs2
  match body with
  | d :: tl =>
    if isPyDigit d then
      (pyIntGo (digitVal d) tl).map fun n => if neg then -(n : Int) else (n : Int)
    else none
  | [] => none

/-- Decimal digits of a natural number (canonical, no leading zeros). -/
def natRepr (n : Nat) : List Char :=
  if n = 0 then ['0']
  else ((Nat.digits 10 n).reverse.map fun d => Char.ofNat (48 + d))

/-- Python `f"{n}"` for an int. -/
def intRepr (n : Int) : List Char :=
  if n < 0 then '-' :: natRepr n.natAbs else natRepr n.toNat

/-- Split a char list on `'\n'` (Python `str.split("\n")`). -/
def splitOnNlGo (cur : List Char) : List Char → List (List Char)
  | [] => [cur.reverse]
  | c :: tl =>
    if c = '\n' then cur.reverse :: splitOnNlGo [] tl
    else splitOnNlGo (c :: cur) tl

def splitOnNl (l : List Char) : List (List Char) :=
  splitOnNlGo [] l

/-- The lines `to_bytes` emits: non-empty fields in order, `data`
split into one `data:` line per `'\n'` segment, a blank line (the
final empty element) terminating the event. -/
def SSEEvent.toLines (e : SSEEvent) : List (List Char) :=
  (if !e.event.isEmpty then ["event: ".toList ++ e.event] else []) ++
  (if !e.data.isEmpty then
    (splitOnNl e.data).map (fun dl => "data: ".toList ++ dl) else []) ++
  (if !e.id.isEmpty then ["id: ".toList ++ e.id] else []) ++
  (match e.retry with
   | some n => ["retry: ".toList ++ intRepr n]
   | none => []) ++
  [[]]

/-- `SSEEvent.to_bytes` (decoded): `"\n".join(lines) + "\n"`; since the
line list always ends with the blank element, this equals terminating
every line with `'\n'`. -/
def SSEEvent.to_bytes (e : SSEEvent) : List Char :=
  (e.toLines.map fun l => l ++ ['\n']).flatten

structure SSEParserState where
  buffer : List Char := []
  current : SSEEvent := {}
deriving Repr, DecidableEq, Inhabited

/-- `line.rstrip("\r")`. -/
def rstripCr (l : List Char) : List Char :=
  (l.reverse.dropWhile (fun c => c = '\r')).reverse

/-- Process one complete line: returns dispatched events (0 or 1) and
the updated in-progress event.  `if not line` / `line.startswith(":")`
/ `line.partition(":")` / `value.startswith(" ")` as in the source. -/
def processLine (cur : SSEEvent) (rawLine : List Char) : List SSEEvent × SSEEvent :=
  let line := rstripCr rawLine
  if line.isEmpty then (if !cur.is_empty then [cur] else [], {})
  else if listIsPrefix [':'] line then ([], cur)
  else
    let (fieldName, value) :=
      if line.contains ':' then
        let fieldName := line.takeWhile (fun c => c ≠ ':')
        let rest := ((line.dropWhile (fun c => c ≠ ':')).drop 1)
        let value := if listIsPrefix [' '] rest then rest.drop 1 else rest
        (fieldName, value)
      else (line, [])
    if fieldName = "event".toList then ([], { cur with event := value })
    else if fieldName = "data".toList then
      ([], { cur with data :=
              if !cur.data.isEmpty then cur.data ++ '\n' :: value else value })
    else if fieldName = "id".toList then ([], { cur with id := value })
    else if fieldName = "retry".toList then
      match pyInt value with
      | some n => ([], { cur with retry := some n })
      | none => ([], cur)
    else ([], cur)

/-- Split the buffer into complete lines and the trailing partial
line. -/
def collectLines : List Char → List (List Char) × List Char
  | [] => ([], [])
  | c :: tl =>
    if c = '\n' then
      let (ls, rem) := collectLines tl
      ([] :: ls, rem)
    else
      match collectLines tl with
      | ([], rem) => ([], c :: rem)
      | (l :: ls, rem) => ((c :: l) :: ls, rem)

/-- Fold `processLine` over a list of complete lines. -/
def processLines (cur : SSEEvent) : List (List Char) → List SSEEvent × SSEEvent
  | [] => ([], cur)
  | l :: ls =>
    let (evs, cur') := processLine cur l
    let (evs', cur'') := processLines cur' ls
    (evs ++ evs', cur'')

/-- `SSEParser.feed(chunk)` — append to the buffer, consume complete
lines, return dispatched events and the new parser state. -/
def SSEParser.feed (st : SSEParserState) (chunk : List Char) :
    List SSEEvent × SSEParserState :=
  let buf := st.buffer ++ chunk
  let (lines, rem) := collectLines buf
  let (evs, cur) := processLines st.current lines
  (evs, ⟨rem, cur⟩)

/-- Events dispatched when a whole stream is fed to a fresh parser. -/
def parseSSE (stream : List Char) : List SSEEvent :=
  (SSEParser.feed {} stream).1

/-- Serialize a list of events back to wire form
(`b"".join(e.to_bytes() for e in events)`). -/
def serializeSSE (events : List SSEEvent) : List Char :=
  (events.map SSEEvent.to_bytes).flatten

/-- Well-formedness of dispatched events: field values hold no newline
and no trailing carriage return (`processLine` reads values off a
single `rstrip`-ed line), and a non-empty `data` starts with a
non-empty segment (the first `data:` line replaces the empty default
instead of appending). -/
def goodVal (v : List Char) : Prop := '\n' ∉ v ∧ v.getLast? ≠ some '\r'

def joinNl : List (List Char) → List Char
  | [] => []
  | [l] => l
  | l :: ls => l ++ '\n' :: joinNl ls

def goodData (d : List Char) : Prop :=
  (d = [] ∨ (splitOnNl d).head? ≠ some []) ∧
  ∀ s ∈ splitOnNl d, s.getLast? ≠ some '\r'

def wfCur (c : SSEEvent) : Prop := goodVal c.event ∧ goodVal c.id ∧ goodData c.data

def wfEvent (e : SSEEvent) : Prop := (e.event ≠ [] ∨ e.data ≠ []) ∧ wfCur e

/-! ## src/dbproxy/buffer/state_machine.py -/

inductive BufferPhase where
  | IDLE
  | CHECKPOINT_PENDING
  | CHECKPOINTING
  | WAL_ACTIVE
  | SWAP_READY
  | SWAP_EXECUTING
deriving DecidableEq, Repr, Inhabited

/-- `BufferPhase.value` (the enum's string payload). -/
def BufferPhase.value : BufferPhase → String
  | .IDLE => "IDLE"
  | .CHECKPOINT_PENDING => "CHECKPOINT_PENDING"
  | .CHECKPOINTING => "CHECKPOINTING"
  | .WAL_ACTIVE => "WAL_ACTIVE"
  | .SWAP_READY => "SWAP_READY"
  | .SWAP_EXECUTING => "SWAP_EXECUTING"

def VALID_TRANSITIONS : List (BufferPhase × BufferPhase) :=
  [(.IDLE, .CHECKPOINT_PENDING),
   (.CHECKPOINT_PENDING, .CHECKPOINTING),
   (.CHECKPOINT_PENDING, .WAL_ACTIVE),
   (.CHECKPOINTING, .WAL_ACTIVE),
   (.WAL_ACTIVE, .SWAP_READY),
   (.SWAP_READY, .SWAP_EXECUTING),
   (.SWAP_EXECUTING, .IDLE),
   (.CHECKPOINT_PENDING, .IDLE),
   (.CHECKPOINTING, .IDLE),
   (.WAL_ACTIVE, .IDLE),
   (.SWAP_READY, .IDLE),
   (.SWAP_EXECUTING, .IDLE)]

/-- The `InvalidTransition` exception payload. -/
structure InvalidTransition where
  from_phase : BufferPhase
  to_phase : BufferPhase
deriving DecidableEq, Repr

/-- `validate_transition(from, to)` — raises `InvalidTransition` when
the pair is outside the table. -/
def validate_transition (from_phase to_phase : BufferPhase) :
    Except InvalidTransition Unit :=
  if (from_phase, to_phase) ∈ VALID_TRANSITIONS then .ok ()
  else .error ⟨from_phase, to_phase⟩

/-- `transition(current, target, conv_id, trigger)` — validated
transition (the `conv_id`/`trigger` arguments only feed logging). -/
def transition (current target : BufferPhase) : Except InvalidTransition BufferPhase :=
  match validate_transition current target with
  | .ok _ => .ok target
  | .error e => .error e

/-! ## src/dbproxy/buffer/manager.py

The manager's asynchronous operations are modelled as pure functions
over a `BufferManager` state.  A background checkpoint task is a
`CheckpointTask` carrying its completion flag and its eventual outcome
(`.ok content` or `.error ()` for a raised exception); awaiting the task
reads that outcome.  Each operation returns
`Except BufferManager BufferManager`: `.ok` is normal completion and
`.error` is an escaped exception, in both cases carrying the manager
state left behind (Python mutates the object in place, so the state at
the raise point persists). -/

structure CheckpointTask where
  done : Bool
  result : Except Unit String
deriving Repr

structure BufferManager where
  conv_id : String
  model : String
  context_window : Int
  checkpoint_threshold : Rat := mkRat 7 10
  swap_threshold : Rat := mkRat 19 20
  compact_trigger_tokens : Int := 50000
  phase : BufferPhase := .IDLE
  total_input_tokens : Int := 0
  checkpoint_content : Option String := none
  checkpoint_anchor_index : Option Nat := none
  checkpoint_task : Option CheckpointTask := none
  last_checkpoint_content : Option String := none
  last_swap_messages : List Json := []
  last_swap_anchor : Option Nat := none
  auth_headers : List (String × String) := []
  system : Option Json := none
  tools : Option Json := none
  all_messages : List Json := []
deriving Repr

/-- A manager operation result: `.ok` = returned, `.error` = raised;
both carry the in-place-mutated state. -/
abbrev MgrRes := Except BufferManager BufferManager

/-- The state an operation left behind, whether or not it raised. -/
def mgrState (r : MgrRes) : BufferManager :=
  match r with
  | .ok m => m
  | .error m => m

/-- `self.phase = transition(self.phase, target, ...)` — the assignment
happens only when `transition` returns. -/
def BufferManager.tryTrans (m : BufferManager) (target : BufferPhase) : MgrRes :=
  match transition m.phase target with
  | .ok p => .ok { m with phase := p }
  | .error _ => .error m

/-- `utilization` property. -/
def BufferManager.utilization (m : BufferManager) : Rat :=
  if m.context_window ≤ 0 then 0
  else mkRat m.total_input_tokens m.context_window.toNat

/-- `update_from_request(body, auth_headers)`. -/
def BufferManager.update_from_request (m : BufferManager) (body : Json)
    (auth : List (String × String)) : BufferManager :=
  { m with
    auth_headers := auth
    system := body.get "system"
    tools := body.get "tools"
    all_messages := ((body.getD "messages" (.arr [])).asList).getD [] }

/-- `usage.get(key, 0)` as an integer. -/
def usageInt (usage : Json) (key : String) : Int :=
  match usage.get key with
  | some (.int n) => n
  | _ => 0

/-- `update_tokens(usage)`. -/
def BufferManager.update_tokens (m : BufferManager) (usage : Json) : BufferManager :=
  { m with total_input_tokens :=
      usageInt usage "input_tokens" + usageInt usage "cache_creation_input_tokens" +
      usageInt usage "cache_read_input_tokens" }

/-- `_run_blocking_checkpoint` — synchronous checkpoint; `result` is
the outcome of the `run_checkpoint` call.  A `KeyError` from
`find_checkpoint_anchor` escapes before any mutation, leaving the state
unchanged (modelled as an unchanged `.ok`). -/
def BufferManager.run_blocking_checkpoint (m : BufferManager)
    (result : Except Unit String) : MgrRes := do
  if m.auth_headers.isEmpty || m.all_messages.isEmpty then return m
  match find_checkpoint_anchor m.all_messages with
  | none => return m
  | some anchor =>
    if anchor = 0 then return m
    let m := { m with checkpoint_anchor_index := some anchor }
    let m ← m.tryTrans .CHECKPOINT_PENDING
    match result with
    | .error _ => m.tryTrans .IDLE
    | .ok s =>
      let m := { m with checkpoint_content := some s, last_checkpoint_content := some s }
      let m ← m.tryTrans .WAL_ACTIVE
      m.tryTrans .SWAP_READY

/-- `_start_checkpoint` — no-op when a task is already running or the
context/anchor is unusable; otherwise records the anchor, transitions to
`CHECKPOINTING` and installs the task (`newTask` carries the future
outcome). -/
def BufferManager.start_checkpoint (m : BufferManager)
    (newTask : CheckpointTask) : MgrRes := do
  if (match m.checkpoint_task with
      | some t => !t.done
      | none => false) then return m
  if m.auth_headers.isEmpty || m.all_messages.isEmpty then return m
  match find_checkpoint_anchor m.all_messages with
  | none => return m
  | some anchor =>
    if anchor = 0 then return m
    let m := { m with checkpoint_anchor_index := some anchor }
    let m ← m.tryTrans .CHECKPOINTING
    return { m with checkpoint_task := some newTask }

/-- `_finalize_checkpoint` — consume a completed task: store the
content and advance to `WAL_ACTIVE`, or reset to `IDLE` on a task
exception. -/
def BufferManager.finalize_checkpoint (m : BufferManager) : MgrRes := do
  match m.checkpoint_task with
  | none => return m
  | some t =>
    if !t.done then return m
    match t.result with
    | .error _ =>
      let m ← m.tryTrans .IDLE
      return { m with checkpoint_task := none }
    | .ok s =>
      let m := { m with checkpoint_content := some s, last_checkpoint_content := some s,
                        checkpoint_task := none }
      m.tryTrans .WAL_ACTIVE

/-- `_await_checkpoint` — block until the task finishes (its outcome
becomes observable), swallowing a task exception, then finalize. -/
def BufferManager.await_checkpoint (m : BufferManager) : MgrRes :=
  match m.checkpoint_task with
  | none => .ok m
  | some t =>
    BufferManager.finalize_checkpoint
      { m with checkpoint_task := some { t with done := true } }

/-- `self._checkpoint_task and self._checkpoint_task.done()`. -/
def taskDone : Option CheckpointTask → Bool
  | some t => t.done
  | none => false

/-- `evaluate_thresholds` — the post-response threshold driver.
`blockingResult` is the outcome of a synchronous checkpoint call on the
emergency path; `newTask` is the task installed if a background
checkpoint starts. -/
def BufferManager.evaluate_thresholds (m : BufferManager)
    (blockingResult : Except Unit String) (newTask : CheckpointTask) : MgrRes := do
  let util := m.utilization
  if m.phase = .IDLE ∧ util ≥ m.checkpoint_threshold then
    if util ≥ m.swap_threshold then
      m.run_blocking_checkpoint blockingResult
    else
      let m ← m.tryTrans .CHECKPOINT_PENDING
      m.start_checkpoint newTask
  else if m.phase = .CHECKPOINT_PENDING ∧ util ≥ m.swap_threshold then
    let m ← m.start_checkpoint newTask
    m.await_checkpoint
  else if m.phase = .WAL_ACTIVE ∧ util ≥ m.swap_threshold then
    m.tryTrans .SWAP_READY
  else if m.phase = .CHECKPOINTING then
    if taskDone m.checkpoint_task then
      let m ← m.finalize_checkpoint
      if util ≥ m.swap_threshold then
        m.tryTrans .SWAP_READY
      else return m
    else if util ≥ m.swap_threshold then
      let m ← m.await_checkpoint
      if (m.checkpoint_content.getD "") ≠ "" ∧ m.phase = .WAL_ACTIVE then
        m.tryTrans .SWAP_READY
      else return m
    else return m
  else return m

/-- `reset(reason)` — cancel any unfinished task, force the phase back
to `IDLE` (no transition is attempted when already `IDLE`), clear the
checkpoint fields. -/
def BufferManager.reset (m : BufferManager) : MgrRes := do
  let old_phase := m.phase
  let m := { m with checkpoint_task := none }
  let m ←
    if old_phase ≠ BufferPhase.IDLE then m.tryTrans .IDLE
    else pure m
  return { m with checkpoint_content := none, checkpoint_anchor_index := none }

/-! ## src/dbproxy/proxy/response_builder.py

`generate_message_id()` hashes the wall clock; the id is threaded in as
the `msgId` argument. -/

/-- `build_compaction_json(compaction_content, model)` (with the
generated message id passed in). -/
def build_compaction_json (compaction_content model msgId : String) : Json :=
  .obj [("id", .str msgId),
        ("type", .str "message"),
        ("role", .str "assistant"),
        ("content", .arr [.obj [("type", .str "text"), ("text", .str compaction_content)]]),
        ("model", .str model),
        ("stop_reason", .str "end_turn"),
        ("stop_sequence", .null),
        ("usage", .obj [("input_tokens", .int 0),
                        ("output_tokens", .int (compaction_content.length / 4))])]

/-- Build one synthetic SSE event whose `data` is `json.dumps(obj)`. -/
def mkSseEvent (name : String) (payload : Json) : SSEEvent :=
  { event := name.toList, data := (pyDumps ", " ": " false payload).toList }

/-- `build_compaction_sse_events(compaction_content, model)` — the
fixed six-event synthetic stream. -/
def build_compaction_sse_events (compaction_content model msgId : String) :
    List SSEEvent :=
  let output_tokens : Int := compaction_content.length / 4
  [mkSseEvent "message_start"
    (.obj [("type", .str "message_start"),
           ("message", .obj [("id", .str msgId), ("type", .str "message"),
             ("role", .str "assistant"), ("content", .arr []),
             ("model", .str model), ("stop_reason", .null),
             ("stop_sequence", .null),
             ("usage", .obj [("input_tokens", .int 0), ("output_tokens", .int 1)])])]),
   mkSseEvent "content_block_start"
    (.obj [("type", .str "content_block_start"), ("index", .int 0),
           ("content_block", .obj [("type", .str "text"), ("text", .str "")])]),
   mkSseEvent "content_block_delta"
    (.obj [("type", .str "content_block_delta"), ("index", .int 0),
           ("delta", .obj [("type", .str "text_delta"),
                           ("text", .str compaction_content)])]),
   mkSseEvent "content_block_stop"
    (.obj [("type", .str "content_block_stop"), ("index", .int 0)]),
   mkSseEvent "message_delta"
    (.obj [("type", .str "message_delta"),
           ("delta", .obj [("stop_reason", .str "end_turn"), ("stop_sequence", .null)]),
           ("usage", .obj [("output_tokens", .int output_tokens)])]),
   mkSseEvent "message_stop" (.obj [("type", .str "message_stop")])]

/-- A swap response: JSON dict (non-streaming) or SSE event list
(streaming). -/
inductive SwapResponse where
  | jsonResp (j : Json)
  | sseResp (events : List SSEEvent)
deriving Repr

/-- `build_swap_response(checkpoint_content, model, stream, wal_messages)`. -/
def build_swap_response (checkpoint_content model : String) (stream : Bool)
    (wal_messages : List Json) (msgId : String) : SwapResponse :=
  let compaction_content := format_compaction_with_wal checkpoint_content wal_messages
  if stream then .sseResp (build_compaction_sse_events compaction_content model msgId)
  else .jsonResp (build_compaction_json compaction_content model msgId)

/-- `serialize_swap_response_bytes(response, stream)` (as decoded
text). -/
def serialize_swap_response_bytes (response : SwapResponse) : String :=
  match response with
  | .sseResp events => String.mk (serializeSSE events)
  | .jsonResp j => pyDumps ", " ": " false j

/-! ## src/dbproxy/buffer/manager.py — swap, client compact -/

/-- `execute_swap(stream)` — only callable in `SWAP_READY`; builds the
synthetic response from the checkpoint and the WAL suffix, snapshots
observability fields, clears the live checkpoint state and returns to
`IDLE`.  The `RuntimeError` on a wrong phase and an `InvalidTransition`
are both `.error`. -/
def BufferManager.execute_swap (m : BufferManager) (stream : Bool) (msgId : String) :
    Except BufferManager (SwapResponse × BufferManager) := do
  if m.phase ≠ BufferPhase.SWAP_READY then throw m
  let m ← m.tryTrans .SWAP_EXECUTING
  let wal_messages : List Json :=
    match m.checkpoint_anchor_index with
    | some anchor => if m.all_messages.isEmpty then [] else m.all_messages.drop anchor
    | none => []
  let response := build_swap_response (m.checkpoint_content.getD "") m.model stream
    wal_messages msgId
  let m := { m with last_swap_messages := m.all_messages,
                    last_swap_anchor := m.checkpoint_anchor_index }
  let m ← m.tryTrans .IDLE
  let m := { m with checkpoint_content := none, checkpoint_anchor_index := none,
                    total_input_tokens := 0 }
  return (response, m)

/-- First locked section of `handle_client_compact`: `SWAP_READY` falls
through, `WAL_ACTIVE` is promoted to `SWAP_READY`. -/
def clientCompactPromote (m : BufferManager) : MgrRes :=
  if m.phase = BufferPhase.SWAP_READY then pure m
  else if m.phase = BufferPhase.WAL_ACTIVE then m.tryTrans .SWAP_READY
  else pure m

/-- Second section of `handle_client_compact`: in `CHECKPOINTING`,
await the task, then promote when a checkpoint got stored. -/
def clientCompactAwait (m : BufferManager) : MgrRes :=
  if m.phase = BufferPhase.CHECKPOINTING then do
    let m ← m.await_checkpoint
    if (m.checkpoint_content.getD "") ≠ "" then m.tryTrans .SWAP_READY
    else pure m
  else pure m

/-- Final section of `handle_client_compact`: swap when `SWAP_READY`,
else signal the caller to forward the native compact. -/
def clientCompactFinish (m : BufferManager) (stream : Bool) (msgId : String) :
    Except BufferManager (Option SwapResponse × BufferManager) := do
  if m.phase = BufferPhase.SWAP_READY then
    let (resp, m) ← m.execute_swap stream msgId
    return (some resp, m)
  else
    return (none, m)

/-- `handle_client_compact(stream, ...)` — returns `some` synthetic
response when the manager can serve the compact, `none` to forward the
native compact. -/
def BufferManager.handle_client_compact (m : BufferManager) (stream : Bool)
    (msgId : String) : Except BufferManager (Option SwapResponse × BufferManager) := do
  let m ← clientCompactPromote m
  let m ← clientCompactAwait m
  clientCompactFinish m stream msgId

/-! ## src/dbproxy/proxy/handler.py

The request handler is modelled up to its decision: parse, classify, and
either answer directly (400 / synthetic swap) or hand the rewritten body
to the forwarder.  The response constructors of the forwarding paths are
modelled separately (they run after the upstream roundtrip).  An
`HttpResponse` records the status and exactly the headers the code sets
explicitly on the response object. -/

structure ProxyConfig where
  checkpoint_threshold : Rat := mkRat 3 5
  swap_threshold : Rat := mkRat 4 5
  passthrough : Bool := false
  compact_trigger_tokens : Int := 50000
  model_context_windows : List (String × Int) :=
    [("claude-opus-4-6", 200000), ("claude-sonnet-4-6", 200000),
     ("claude-sonnet-4-5-20250514", 200000), ("claude-haiku-4-5-20251001", 200000)]
deriving Repr

/-- `ProxyConfig.context_window_for(model)`. -/
def ProxyConfig.context_window_for (cfg : ProxyConfig) (model : String) : Int :=
  (cfg.model_context_windows.lookup model).getD 200000

structure HttpResponse where
  status : Nat
  headers : List (String × String)
  body : String
deriving Repr, DecidableEq

/-- An inbound request body: raw bytes that either fail JSON parsing
(with the decoder's message) or produce a value. -/
inductive RequestBody where
  | malformed (errMsg : String)
  | parsed (j : Json)
deriving Repr

/-- `_is_suggestion_request(body)`. -/
def is_suggestion_request (body : Json) : Bool :=
  match ((body.getD "messages" (.arr [])).asList).getD [] with
  | [] => false
  | messages =>
    match messages.getLast? with
    | none => false
    | some last =>
      if !optStrEq (last.get "role") "user" then false
      else
        match last.getD "content" (.str "") with
        | .str s => strContains s "[SUGGESTION MODE:"
        | .arr blocks =>
          blocks.any fun block =>
            match block with
            | .obj _ =>
              optStrEq (block.get "type") "text" &&
                strContains (((block.getD "text" (.str "")).asStr).getD "")
                  "[SUGGESTION MODE:"
            | .str s => strContains s "[SUGGESTION MODE:"
            | _ => false
        | _ => false

/-- The two diagnostic headers
(`x-double-buffer-phase`, `x-double-buffer-conv-id`). -/
def diagHeaders (m : BufferManager) : List (String × String) :=
  [("x-double-buffer-phase", m.phase.value),
   ("x-double-buffer-conv-id", pyTake m.conv_id 16)]

/-- `_send_synthetic_response` — 200 with the serialized swap response
and the diagnostic headers. -/
def send_synthetic_response (response : SwapResponse) (m : BufferManager) :
    HttpResponse :=
  { status := 200,
    headers := diagHeaders m,
    body := serialize_swap_response_bytes response }

/-- The 400 answer for a body that fails JSON parsing
(`web.json_response(..., status=400)` — no extra headers). -/
def bad_request_response (errMsg : String) : HttpResponse :=
  { status := 400,
    headers := [],
    body := pyDumps ", " ": " false
      (.obj [("error", .obj [("type", .str "invalid_request"),
                             ("message", .str errMsg)])]) }

/-- The 502 answer for an upstream transport error
(`web.json_response(..., status=502)` — no extra headers). -/
def transport_error_response (errMsg : String) : HttpResponse :=
  { status := 502,
    headers := [],
    body := pyDumps ", " ": " false
      (.obj [("error", .obj [("type", .str "proxy_error"),
        ("message", .str ("Upstream connection failed: " ++ errMsg))])]) }

/-- The verbatim pass-through of an upstream non-2xx
(`web.Response(body=..., status=..., content_type=...)` — no extra
headers). -/
def upstream_error_response (status : Nat) (content : String) : HttpResponse :=
  { status := status, headers := [], body := content }

/-- `_forward_non_streaming`'s success response: upstream body and
status verbatim plus the diagnostic headers (built after token update
and threshold evaluation, so `m` is the manager at response-build
time). -/
def forward_non_streaming_response (m : BufferManager) (status : Nat)
    (content : String) : HttpResponse :=
  { status := status, headers := diagHeaders m, body := content }

/-- `_forward_streaming`'s client `StreamResponse` headers (prepared
before the SSE pipe starts). -/
def forward_streaming_response_headers (m : BufferManager) : List (String × String) :=
  [("content-type", "text/event-stream"), ("cache-control", "no-cache")] ++
  diagHeaders m

/-- Modelled from the spec: `BufferManager.should_swap` is called by the
handler (handler.py line 160) and exercised by
tests/test_buffer_manager.py, but its definition is missing from
src/src/dbproxy/buffer/manager.py.  Spec §4.9 step 10: "If
`phase == SWAP_READY`, execute swap and return synthetic." -/
def BufferManager.should_swap (m : BufferManager) : Bool :=
  m.phase = BufferPhase.SWAP_READY

/-- What `MessageHandler.handle` decides for one request. -/
inductive HandlerDecision where
  /-- An immediate answer (400, or a synthetic swap response). -/
  | respond (resp : HttpResponse) (m : BufferManager)
  /-- Forward `body` upstream (the manager continues with the
  forwarder). -/
  | forward (body : Json) (m : BufferManager)
  /-- An exception escaped (never happens on the claims' inputs). -/
  | raised (m : BufferManager)
deriving Repr

/-- The auth-header subset captured for checkpoint calls. -/
def captureAuthHeaders (reqHeaders : List (String × String)) (queryString : String) :
    List (String × String) :=
  (reqHeaders.filter fun kv =>
    pyLower kv.1 = "x-api-key" || pyLower kv.1 = "authorization" ||
    pyLower kv.1 = "anthropic-version" || pyLower kv.1 = "anthropic-beta") ++
  [("_query_string", queryString)]

/-- `MessageHandler.handle` up to its forward/respond decision,
following the source order: parse → suggestion passthrough → reset on
compaction block → request snapshot → global passthrough → swap when
`should_swap()` → immediate swap from `WAL_ACTIVE` past the swap
threshold → client-compact handling → strip compact edit and forward. -/
def handlePost (cfg : ProxyConfig) (body : Json) (stream : Bool) (msgId : String)
    (mgr : BufferManager) : HandlerDecision :=
  if cfg.passthrough then .forward body mgr
  else if mgr.should_swap then
    match mgr.execute_swap stream msgId with
    | .ok (resp, mgr) => .respond (send_synthetic_response resp mgr) mgr
    | .error m => .raised m
  else if mgr.phase = BufferPhase.WAL_ACTIVE ∧
          (mgr.checkpoint_content.getD "") ≠ "" ∧
          mgr.utilization ≥ mgr.swap_threshold then
    let mgr := { mgr with phase := BufferPhase.SWAP_READY }
    match mgr.execute_swap stream msgId with
    | .ok (resp, mgr) => .respond (send_synthetic_response resp mgr) mgr
    | .error m => .raised m
  else
    let afterCompact : Except BufferManager (Option SwapResponse × BufferManager) :=
      if has_compact_edit body then mgr.handle_client_compact stream msgId
      else .ok (none, mgr)
    match afterCompact with
    | .error m => .raised m
    | .ok (some resp, mgr) => .respond (send_synthetic_response resp mgr) mgr
    | .ok (none, mgr) => .forward (strip_compact_edit body) mgr

def handle (cfg : ProxyConfig) (req : RequestBody)
    (reqHeaders : List (String × String)) (queryString : String)
    (mgr : BufferManager) (msgId : String) : HandlerDecision :=
  match req with
  | .malformed errMsg => .respond (bad_request_response errMsg) mgr
  | .parsed body =>
    let stream := (body.getD "stream" (.bool false)).truthy
    let auth_headers := captureAuthHeaders reqHeaders queryString
    let mgr := { mgr with
      checkpoint_threshold := cfg.checkpoint_threshold,
      swap_threshold := cfg.swap_threshold,
      compact_trigger_tokens := cfg.compact_trigger_tokens }
    if is_suggestion_request body then .forward body mgr
    else
      let mgr := if has_compaction_block body then mgrState mgr.reset else mgr
      let mgr := mgr.update_from_request body auth_headers
      handlePost cfg body stream msgId mgr

/-! ## Reachable manager states

One step is one manager operation executed under the mutex (plus the
handler's two direct writes: the threshold refresh and the
`WAL_ACTIVE` → `SWAP_READY` promotion guarded at handler.py line 162).
Checkpoint outcomes are universally quantified.  `mgrState` takes the
state an operation leaves behind whether it returns or raises. -/

/-- The state left by `execute_swap` (the response is dropped). -/
def BufferManager.execute_swap_state (m : BufferManager) (stream : Bool)
    (msgId : String) : BufferManager :=
  match m.execute_swap stream msgId with
  | .ok (_, m') => m'
  | .error m' => m'

/-- The state left by `handle_client_compact`. -/
def BufferManager.handle_client_compact_state (m : BufferManager) (stream : Bool)
    (msgId : String) : BufferManager :=
  match m.handle_client_compact stream msgId with
  | .ok (_, m') => m'
  | .error m' => m'

inductive MgrStep : BufferManager → BufferManager → Prop
  | update_from_request (m : BufferManager) (body : Json) (auth : List (String × String)) :
      MgrStep m (m.update_from_request body auth)
  | update_tokens (m : BufferManager) (usage : Json) :
      MgrStep m (m.update_tokens usage)
  | evaluate_thresholds (m : BufferManager) (blockingResult : Except Unit String)
      (newTask : CheckpointTask) :
      MgrStep m (mgrState (m.evaluate_thresholds blockingResult newTask))
  | finalize_checkpoint (m : BufferManager) :
      MgrStep m (mgrState m.finalize_checkpoint)
  | await_checkpoint (m : BufferManager) :
      MgrStep m (mgrState m.await_checkpoint)
  | execute_swap (m : BufferManager) (stream : Bool) (msgId : String) :
      MgrStep m (m.execute_swap_state stream msgId)
  | handle_client_compact (m : BufferManager) (stream : Bool) (msgId : String) :
      MgrStep m (m.handle_client_compact_state stream msgId)
  | reset (m : BufferManager) :
      MgrStep m (mgrState m.reset)
  | set_config (m : BufferManager) (ck sw : Rat) (ct : Int) :
      MgrStep m { m with checkpoint_threshold := ck, swap_threshold := sw,
                         compact_trigger_tokens := ct }
  | promote_immediate_swap (m : BufferManager)
      (hphase : m.phase = BufferPhase.WAL_ACTIVE)
      (hcontent : (m.checkpoint_content.getD "") ≠ "")
      (hutil : m.utilization ≥ m.swap_threshold) :
      MgrStep m { m with phase := BufferPhase.SWAP_READY }

/-- `BufferManager.__init__` (thresholds and trigger are constructor
arguments; everything else starts at its default). -/
def BufferManager.init (conv_id model : String) (context_window : Int)
    (ck sw : Rat) (ct : Int) : BufferManager :=
  { conv_id := conv_id, model := model, context_window := context_window,
    checkpoint_threshold := ck, swap_threshold := sw, compact_trigger_tokens := ct }

inductive MgrReachable : BufferManager → Prop
  | init (conv_id model : String) (context_window : Int) (ck sw : Rat) (ct : Int) :
      MgrReachable (BufferManager.init conv_id model context_window ck sw ct)
  | step {m m' : BufferManager} : MgrReachable m → MgrStep m m' → MgrReachable m'

/-- Claim C5's invariant: a checkpoint is stored exactly in the
WAL/SWAP phases. -/
def ContentPhaseInv (m : BufferManager) : Prop :=
  m.checkpoint_content ≠ none ↔
    (m.phase = BufferPhase.WAL_ACTIVE ∨ m.phase = BufferPhase.SWAP_READY ∨
     m.phase = BufferPhase.SWAP_EXECUTING)

/-- Auxiliary invariant: a live task handle only exists in
`CHECKPOINTING`. -/
def TaskPhaseInv (m : BufferManager) : Prop :=
  m.checkpoint_task ≠ none → m.phase = BufferPhase.CHECKPOINTING

def MgrInv (m : BufferManager) : Prop := ContentPhaseInv m ∧ TaskPhaseInv m

/-! ## Spec-side definitions (for refinement claims)

These are written from the specification's words, to be compared with
the source-derived definitions above. -/

/-- All `tool_use` block ids (with a string id) in a message list. -/
def toolUseIds (messages : List Json) : List String :=
  messages.foldl
    (fun acc msg =>
      match msg.get "content" with
      | some (.arr blocks) =>
        blocks.foldl
          (fun acc' block =>
            match block with
            | .obj _ =>
              if optStrEq (block.get "type") "tool_use" then
                match block.get "id" with
                | some (.str tid) => acc' ++ [tid]
                | _ => acc'
              else acc'
            | _ => acc')
          acc
      | _ => acc)
    []

/-- Claim C3's property of a prefix `M[:a]`: every `tool_use` id in the
prefix has a matching `tool_result.tool_use_id` within the prefix. -/
def prefixResolved (messages : List Json) (a : Nat) : Bool :=
  (toolUseIds (messages.take a)).all fun tid =>
    (toolResultIds (messages.take a)).contains tid

/-- Claim C6's literal fallback formula: SHA-256 of
`system_prefix(1000) + "\n---\n" + first_user_message_content`, with an
absent part contributing the empty string. -/
def claimedSystemPrefix (body : Json) : String :=
  match body.get "system" with
  | some (.str s) => pyTake s SYSTEM_PREFIX_LENGTH
  | some (.arr l) => pyTake (pyDumps ", " ": " true (.arr l)) SYSTEM_PREFIX_LENGTH
  | _ => ""

def claimedFirstUserContent (body : Json) : String :=
  match (((body.getD "messages" (.arr [])).asList).getD []).find?
      (fun msg => optStrEq (msg.get "role") "user") with
  | some msg =>
    match msg.getD "content" (.str "") with
    | .str s => s
    | .arr l => pyDumps ", " ": " true (.arr l)
    | _ => ""
  | none => ""

def claimedFallbackFingerprint (body : Json) : String :=
  sha256HexOfString (claimedSystemPrefix body ++ "\n---\n" ++ claimedFirstUserContent body)

/-- The amended fallback formula: the SHA-256 of the `"\n---\n"`-join
of the parts that are present — the (possibly list-serialized) system
prefix when the body has a string or list system, and the first user
message's content when such a message exists with string or list
content. -/
def specFallbackParts (body : Json) : List String :=
  (match body.get "system" with
   | some (.str s) => [pyTake s SYSTEM_PREFIX_LENGTH]
   | some (.arr l) => [pyTake (pyDumps ", " ": " true (.arr l)) SYSTEM_PREFIX_LENGTH]
   | _ => []) ++
  (match (((body.getD "messages" (.arr [])).asList).getD []).find?
      (fun msg => optStrEq (msg.get "role") "user") with
   | some msg =>
     match msg.getD "content" (.str "") with
     | .str s => [s]
     | .arr l => [pyDumps ", " ": " true (.arr l)]
     | _ => []
   | none => [])

def specFingerprint (body : Json) : String :=
  match extract_session_id body with
  | some g => g
  | none => sha256HexOfString (String.intercalate "\n---\n" (specFallbackParts body))

/-- The manager state `execute_swap` leaves behind on success. -/
def postSwapState (m : BufferManager) : BufferManager :=
  { m with phase := BufferPhase.IDLE,
           last_swap_messages := m.all_messages,
           last_swap_anchor := m.checkpoint_anchor_index,
           checkpoint_content := none,
           checkpoint_anchor_index := none,
           total_input_tokens := 0 }

/-- The WAL suffix `execute_swap` serializes. -/
def swapWal (m : BufferManager) : List Json :=
  match m.checkpoint_anchor_index with
  | some anchor => if m.all_messages.isEmpty then [] else m.all_messages.drop anchor
  | none => []


/-! ## Concrete inputs used by the theorems -/

/-- Messages where the second `tool_use` is unresolved while the first
pair's `tool_result` only arrives after it. -/
def anchorBugMessages : List Json :=
  [.obj [("role", .str "assistant"),
         ("content", .arr [.obj [("type", .str "tool_use"), ("id", .str "a"),
                                 ("name", .str "read"), ("input", .obj [])]])],
   .obj [("role", .str "assistant"),
         ("content", .arr [.obj [("type", .str "tool_use"), ("id", .str "b"),
                                 ("name", .str "bash"), ("input", .obj [])]])],
   .obj [("role", .str "user"),
         ("content", .arr [.obj [("type", .str "tool_result"),
                                 ("tool_use_id", .str "a"),
                                 ("content", .str "ok")]])]]

/-- A compact request by marker text (no `context_management` edit). -/
def markerBody : Json :=
  .obj [("model", .str "claude-sonnet-4-6"),
        ("messages", .arr [.obj [("role", .str "user"),
          ("content", .str "Please create a detailed summary of the conversation so far.")]])]

/-- A request with a `compact_20260112` edit but no marker text. -/
def editBody : Json :=
  .obj [("model", .str "claude-sonnet-4-6"),
        ("messages", .arr [.obj [("role", .str "user"), ("content", .str "hi")]]),
        ("context_management", .obj [("edits", .arr [.obj [("type", .str "compact_20260112")]])])]

/-- A request whose assistant message still carries a `compaction`
block. -/
def compactionEchoBody : Json :=
  .obj [("model", .str "claude-sonnet-4-6"),
        ("messages", .arr [
          .obj [("role", .str "assistant"),
                ("content", .arr [.obj [("type", .str "compaction"),
                                        ("content", .str "old summary")]])],
          .obj [("role", .str "user"), ("content", .str "go on")]])]

/-- A plain request body (no marker, edit, or compaction block). -/
def plainBody : Json :=
  .obj [("model", .str "claude-sonnet-4-6"),
        ("messages", .arr [.obj [("role", .str "user"), ("content", .str "hi")]])]

/-- A manager sitting in `WAL_ACTIVE` with a stored checkpoint. -/
def walManager : BufferManager :=
  { conv_id := "conv", model := "claude-sonnet-4-6", context_window := 200000,
    phase := BufferPhase.WAL_ACTIVE, checkpoint_content := some "X",
    checkpoint_anchor_index := some 1 }

/-- A manager sitting in `SWAP_READY` with a stored checkpoint. -/
def swapReadyManager : BufferManager :=
  { conv_id := "conv", model := "claude-sonnet-4-6", context_window := 200000,
    phase := BufferPhase.SWAP_READY, checkpoint_content := some "X",
    checkpoint_anchor_index := some 1 }

/-- The manager state after the handler refreshed the live config and
recorded the request snapshot (steps 5 and 8 of §4.9). -/
def afterSnapshot (cfg : ProxyConfig) (m : BufferManager) (body : Json)
    (reqHeaders : List (String × String)) (queryString : String) : BufferManager :=
  ({ m with
      checkpoint_threshold := cfg.checkpoint_threshold,
      swap_threshold := cfg.swap_threshold,
      compact_trigger_tokens := cfg.compact_trigger_tokens }).update_from_request
    body (captureAuthHeaders reqHeaders queryString)

/-- A body with no system prompt and first user content `"x"` (claim
C6's fallback formula disagrees with the code here). -/
def noSystemBody : Json :=
  .obj [("messages", .arr [.obj [("role", .str "user"), ("content", .str "x")]])]

/-! # Theorems -/

/-- A successful swap from `SWAP_READY` computes exactly the synthetic
response over the WAL suffix and the cleared post-swap state. -/
lemma execute_swap_eq (m : BufferManager) (stream : Bool) (msgId : String)
    (h : m.phase = BufferPhase.SWAP_READY) :
    m.execute_swap stream msgId =
      .ok (build_swap_response (m.checkpoint_content.getD "") m.model stream
             (swapWal m) msgId, postSwapState m) := by
  obtain ⟨cid, mo, cw, ck, sw, ct, ph, tot, cc, cai, task, lcc, lsm, lsa, ah, sys, tl, am⟩ := m
  simp only at h
  subst h
  rfl

/-- C7: the code violates the claim (and the repository's own test
`test_swap.py::TestFormatCompactionWithWal::test_no_wal`):
`format_compaction_with_wal("summary", [])` is not `"summary"` but the
checkpoint wrapped in the `<context_summary>` frame — though indeed
without any `<recent_activity>` section. -/
theorem format_compaction_empty_wal_not_identity :
    format_compaction_with_wal "summary" [] =
      "<context_summary>\n" ++ SWAP_PREAMBLE ++ "\n\nsummary\n</context_summary>" ∧
    format_compaction_with_wal "summary" [] ≠ "summary" ∧
    strContains (format_compaction_with_wal "summary" []) "<recent_activity>" = false :=
  ⟨by rfl, by decide, by decide⟩

/-- C2: for a manager in `SWAP_READY`, `execute_swap` returns a
response, and afterwards the phase is `IDLE`, `total_input_tokens` is
`0`, and `checkpoint_content` and `checkpoint_anchor_index` are null. -/
theorem execute_swap_returns_and_resets (m : BufferManager) (stream : Bool)
    (msgId : String) (h : m.phase = BufferPhase.SWAP_READY) :
    ∃ resp m', m.execute_swap stream msgId = .ok (resp, m') ∧
      m'.phase = BufferPhase.IDLE ∧ m'.total_input_tokens = 0 ∧
      m'.checkpoint_content = none ∧ m'.checkpoint_anchor_index = none :=
  ⟨_, postSwapState m, execute_swap_eq m stream msgId h, rfl, rfl, rfl, rfl⟩

/-- C2 witness: the theorem applied to a concrete `SWAP_READY`
manager. -/
theorem execute_swap_returns_and_resets_witness :
    ∃ resp m',
      BufferManager.execute_swap
        { conv_id := "conv", model := "claude-sonnet-4-6", context_window := 200000,
          phase := BufferPhase.SWAP_READY, checkpoint_content := some "X",
          checkpoint_anchor_index := some 1,
          all_messages := [.obj [("role", .str "user"), ("content", .str "hi")]] }
        false "msgid" = .ok (resp, m') ∧
      m'.phase = BufferPhase.IDLE ∧ m'.total_input_tokens = 0 ∧
      m'.checkpoint_content = none ∧ m'.checkpoint_anchor_index = none :=
  execute_swap_returns_and_resets _ false "msgid" rfl

/-- C10: `reset` never raises from any phase (even though
`IDLE → IDLE` is not a valid transition, `reset` skips the transition
when already `IDLE`); it clears the task, content and anchor, lands in
`IDLE`, and is idempotent. -/
theorem reset_total_and_idempotent (m : BufferManager) :
    ∃ m', m.reset = .ok m' ∧ m'.phase = BufferPhase.IDLE ∧
      m'.checkpoint_content = none ∧ m'.checkpoint_anchor_index = none ∧
      m'.checkpoint_task = none ∧ m'.reset = .ok m' := by
  obtain ⟨cid, mo, cw, ck, sw, ct, ph, tot, cc, cai, task, lcc, lsm, lsa, ah, sys, tl, am⟩ := m
  cases ph <;> exact ⟨_, rfl, rfl, rfl, rfl, rfl, rfl⟩

/-- C3: the code violates the claim.  On `anchorBugMessages` the anchor
is `1` (the index of the earliest unresolved `tool_use`), yet
`M[:1]` contains `tool_use` id `"a"` whose `tool_result` sits at index
2, outside the prefix — the checkpoint would split a resolved
tool-use/tool-result pair, exactly what the spec's rationale and the
function's own docstring ("no pending tool_use without a matching
tool_result") forbid. -/
theorem anchor_splits_resolved_tool_pair :
    find_checkpoint_anchor anchorBugMessages = some 1 ∧
    prefixResolved anchorBugMessages 1 = false ∧
    toolUseIds (anchorBugMessages.take 1) = ["a"] ∧
    toolResultIds (anchorBugMessages.take 1) = [] :=
  ⟨rfl, rfl, rfl, rfl⟩

/-- C4: the code violates the claim.  The handler classifies compact
requests with the deprecated edit-type detector `has_compact_edit`
(whose own docstring says "Claude Code never sends this edit type; use
`is_compact_request` instead"), never calling the marker detector: a
marker-text compact request in `WAL_ACTIVE` is forwarded instead of
receiving the §4.5 treatment, while an edit-only request without the
marker is answered synthetically. -/
theorem compact_classification_uses_deprecated_detector :
    is_compact_request markerBody = true ∧
    has_compact_edit markerBody = false ∧
    handle {} (.parsed markerBody) [] "" walManager "id" =
      .forward markerBody (afterSnapshot {} walManager markerBody [] "") ∧
    is_compact_request editBody = false ∧
    has_compact_edit editBody = true ∧
    (∃ m', handle {} (.parsed editBody) [] "" walManager "id" =
      .respond (send_synthetic_response
        (build_swap_response "X" "claude-sonnet-4-6" false [] "id") m') m') :=
  ⟨rfl, rfl, rfl, rfl, rfl, ⟨_, rfl⟩⟩

/-- Any `SWAP_READY` manager at the `handlePost` stage gets the
synthetic swap response. -/
lemma handlePost_swap_ready (cfg : ProxyConfig) (body : Json) (stream : Bool)
    (msgId : String) (m : BufferManager)
    (hpass : cfg.passthrough = false)
    (hphase : m.phase = BufferPhase.SWAP_READY) :
    handlePost cfg body stream msgId m =
      .respond (send_synthetic_response
        (build_swap_response (m.checkpoint_content.getD "") m.model stream
          (swapWal m) msgId) (postSwapState m)) (postSwapState m) := by
  unfold handlePost
  rw [hpass]
  rw [show m.should_swap = true from by simp [BufferManager.should_swap, hphase]]
  rw [execute_swap_eq m stream msgId hphase]
  rfl

/-- C1 counterexample: the claim as stated fails when the request body
carries a `compaction` block — §4.9 step 7 resets the manager to `IDLE`
before the swap check, so a `SWAP_READY` manager's non-suggestion,
non-passthrough request is forwarded upstream instead of answered
synthetically. -/
theorem handler_forwards_swap_ready_on_compaction_echo :
    swapReadyManager.phase = BufferPhase.SWAP_READY ∧
    is_suggestion_request compactionEchoBody = false ∧
    ProxyConfig.passthrough {} = false ∧
    (∃ m', handle {} (.parsed compactionEchoBody) [] "" swapReadyManager "id" =
      .forward compactionEchoBody m') :=
  ⟨rfl, rfl, rfl, ⟨_, rfl⟩⟩

/-- C1 (amended): for every parsed, non-suggestion request without a
`compaction` block, with global passthrough disabled, a `SWAP_READY`
manager gets the swap executed and the synthetic compaction response
returned — never a forward — and the manager ends in `IDLE`. -/
theorem handler_swap_ready_returns_synthetic (cfg : ProxyConfig) (body : Json)
    (reqHeaders : List (String × String)) (queryString : String)
    (mgr : BufferManager) (msgId : String)
    (hsug : is_suggestion_request body = false)
    (hpass : cfg.passthrough = false)
    (hcb : has_compaction_block body = false)
    (hphase : mgr.phase = BufferPhase.SWAP_READY) :
    ∃ resp m', handle cfg (.parsed body) reqHeaders queryString mgr msgId =
      .respond (send_synthetic_response resp m') m' ∧ m'.phase = BufferPhase.IDLE := by
  refine ⟨build_swap_response
      ((afterSnapshot cfg mgr body reqHeaders queryString).checkpoint_content.getD "")
      (afterSnapshot cfg mgr body reqHeaders queryString).model
      ((body.getD "stream" (.bool false)).truthy)
      (swapWal (afterSnapshot cfg mgr body reqHeaders queryString)) msgId,
    postSwapState (afterSnapshot cfg mgr body reqHeaders queryString), ?_, rfl⟩
  unfold handle
  simp only [hsug, hcb, Bool.false_eq_true, if_false]
  exact handlePost_swap_ready cfg body _ msgId _ hpass hphase

/-- C1 witness: the amended theorem applied to a plain request and a
concrete `SWAP_READY` manager. -/
theorem handler_swap_ready_returns_synthetic_witness :
    is_suggestion_request plainBody = false ∧
    ProxyConfig.passthrough {} = false ∧
    has_compaction_block plainBody = false ∧
    swapReadyManager.phase = BufferPhase.SWAP_READY ∧
    (∃ resp m', handle {} (.parsed plainBody) [] "" swapReadyManager "id" =
      .respond (send_synthetic_response resp m') m' ∧ m'.phase = BufferPhase.IDLE) :=
  ⟨rfl, rfl, rfl, rfl,
    handler_swap_ready_returns_synthetic {} plainBody [] "" swapReadyManager "id"
      rfl rfl rfl rfl⟩

/-- C6 counterexample: on a body with no system prompt the code hashes
just the first user content (`sha256("x")`), while the claim's formula
prescribes `sha256(system_prefix + "\n---\n" + user_content)` — the
separator is emitted only between parts that are present, not
unconditionally. -/
theorem fingerprint_no_system_separator_mismatch :
    extract_session_id noSystemBody = none ∧
    compute_fingerprint noSystemBody ≠ claimedFallbackFingerprint noSystemBody :=
  ⟨rfl, by decide⟩

/-- C6 (amended): `compute_fingerprint` returns the regex-captured
session id when `metadata.user_id` matches `_session_([0-9a-f-]+)$`,
and otherwise the SHA-256 hex digest of the `"\n---\n"`-join of the
parts that are present: the 1000-character system prefix (a list-typed
system serialized with keys sorted before truncation) when the body has
one, and the serialized content of the first user message when one
exists. -/
theorem fingerprint_matches_spec_formula :
    ∀ body : Json, compute_fingerprint body = specFingerprint body := by
  intro body
  cases h : extract_session_id body <;>
    simp [compute_fingerprint, specFingerprint, h, fallback_fingerprint,
          fallbackParts, specFallbackParts]

/-- C9 counterexample: the 400 invalid-request response carries no
diagnostic headers at all, contradicting "every /v1/messages response".
(The 502 transport-error and upstream-error pass-through responses lack
them likewise.) -/
theorem bad_request_response_lacks_diag_headers :
    handle {} (.malformed "boom") [] "" swapReadyManager "id" =
      .respond (bad_request_response "boom") swapReadyManager ∧
    (bad_request_response "boom").headers.lookup "x-double-buffer-phase" = none ∧
    (bad_request_response "boom").headers.lookup "x-double-buffer-conv-id" = none :=
  ⟨rfl, rfl, rfl⟩

/-- C9 (amended): synthetic swap responses and successfully forwarded
upstream responses (non-streaming and streaming) carry
`x-double-buffer-phase` and `x-double-buffer-conv-id` (the 16-character
conversation-id prefix); the error responses — HTTP 400
invalid-request, HTTP 502 transport-error, and the verbatim upstream
non-2xx pass-through — carry neither. -/
theorem diag_headers_on_success_responses_only :
    (∀ (m : BufferManager) (r : SwapResponse),
      (send_synthetic_response r m).headers.lookup "x-double-buffer-phase" =
        some m.phase.value ∧
      (send_synthetic_response r m).headers.lookup "x-double-buffer-conv-id" =
        some (pyTake m.conv_id 16)) ∧
    (∀ (m : BufferManager) (status : Nat) (content : String),
      (forward_non_streaming_response m status content).headers.lookup
        "x-double-buffer-phase" = some m.phase.value ∧
      (forward_non_streaming_response m status content).headers.lookup
        "x-double-buffer-conv-id" = some (pyTake m.conv_id 16)) ∧
    (∀ m : BufferManager,
      (forward_streaming_response_headers m).lookup "x-double-buffer-phase" =
        some m.phase.value ∧
      (forward_streaming_response_headers m).lookup "x-double-buffer-conv-id" =
        some (pyTake m.conv_id 16)) ∧
    (∀ e : String, (bad_request_response e).headers = []) ∧
    (∀ e : String, (transport_error_response e).headers = []) ∧
    (∀ (st : Nat) (c : String), (upstream_error_response st c).headers = []) :=
  ⟨fun _ _ => ⟨rfl, rfl⟩, fun _ _ _ => ⟨rfl, rfl⟩, fun _ => ⟨rfl, rfl⟩,
   fun _ => rfl, fun _ => rfl, fun _ _ => rfl⟩

/-! ## Claim C5: the checkpoint-content/phase invariant -/

lemma inv_update_from_request (m : BufferManager) (h : MgrInv m) (body : Json)
    (auth : List (String × String)) : MgrInv (m.update_from_request body auth) := by
  simpa [MgrInv, ContentPhaseInv, TaskPhaseInv, BufferManager.update_from_request] using h

lemma inv_update_tokens (m : BufferManager) (h : MgrInv m) (usage : Json) :
    MgrInv (m.update_tokens usage) := by
  simpa [MgrInv, ContentPhaseInv, TaskPhaseInv, BufferManager.update_tokens] using h

lemma inv_set_config (m : BufferManager) (h : MgrInv m) (ck sw : Rat) (ct : Int) :
    MgrInv { m with checkpoint_threshold := ck, swap_threshold := sw,
                    compact_trigger_tokens := ct } := by
  simpa [MgrInv, ContentPhaseInv, TaskPhaseInv] using h

lemma mgrState_ok (m : BufferManager) : mgrState (.ok m) = m := rfl

lemma mgrState_error (m : BufferManager) : mgrState (.error m) = m := rfl

lemma exceptPure_eq_ok (m : BufferManager) : (pure m : MgrRes) = .ok m := rfl

lemma mgrBind_ok (m : BufferManager) (f : BufferManager → MgrRes) :
    (Except.ok m >>= f) = f m := rfl

lemma mgrBind_error (m : BufferManager) (f : BufferManager → MgrRes) :
    ((Except.error m : MgrRes) >>= f) = .error m := rfl

lemma exceptBind_ok (m : BufferManager) (f : BufferManager → MgrRes) :
    Except.bind (Except.ok m) f = f m := rfl

lemma exceptBind_error (m : BufferManager) (f : BufferManager → MgrRes) :
    (Except.bind (Except.error m) f : MgrRes) = .error m := rfl

lemma inv_bind {x : MgrRes} {f : BufferManager → MgrRes}
    (hx : MgrInv (mgrState x))
    (hf : ∀ m1, x = .ok m1 → MgrInv m1 → MgrInv (mgrState (f m1))) :
    MgrInv (mgrState (x >>= f)) := by
  cases hx' : x with
  | ok m1 =>
    rw [mgrBind_ok]
    exact hf m1 hx' (by rw [hx'] at hx; exact hx)
  | error m1 =>
    rw [mgrBind_error]
    rw [hx'] at hx
    exact hx

lemma content_none_of_inv (m : BufferManager) (h : MgrInv m)
    (hph : m.phase = BufferPhase.IDLE ∨ m.phase = BufferPhase.CHECKPOINT_PENDING ∨
           m.phase = BufferPhase.CHECKPOINTING) :
    m.checkpoint_content = none := by
  rcases hcc : m.checkpoint_content with _ | s
  · rfl
  · have := h.1.mp (by simp [hcc])
    rcases hph with hp | hp | hp <;> rcases this with h2 | h2 | h2 <;> simp [hp] at h2 ⊢

lemma task_none_of_inv (m : BufferManager) (h : MgrInv m)
    (hph : m.phase ≠ BufferPhase.CHECKPOINTING) :
    m.checkpoint_task = none := by
  rcases htask : m.checkpoint_task with _ | t
  · rfl
  · exact absurd (h.2 (by simp [htask])) hph

lemma inv_tryTrans_SR (m : BufferManager) (h : MgrInv m) :
    MgrInv (mgrState (m.tryTrans BufferPhase.SWAP_READY)) := by
  obtain ⟨hc, ht⟩ := h
  unfold BufferManager.tryTrans
  rcases hph : m.phase <;>
    simp only [transition, validate_transition, VALID_TRANSITIONS, hph] <;>
    simp only [List.mem_cons, List.not_mem_nil, Prod.mk.injEq, reduceCtorEq,
      and_false, false_and, and_true, true_and, or_false, false_or, or_self,
      if_true, if_false, reduceIte, mgrState_ok, mgrState_error]
  case WAL_ACTIVE =>
    refine ⟨?_, ?_⟩
    · simp only [MgrInv, ContentPhaseInv] at hc ⊢
      constructor
      · intro; simp
      · intro; simpa using hc.mpr (by simp [hph])
    · intro htk
      exact absurd (ht (by simpa using htk)) (by simp [hph])
  all_goals exact ⟨hc, ht⟩

lemma inv_finalize (m : BufferManager) (h : MgrInv m) :
    MgrInv (mgrState m.finalize_checkpoint) := by
  obtain ⟨hc, ht⟩ := h
  unfold BufferManager.finalize_checkpoint
  rcases htask : m.checkpoint_task with _ | t
  · exact ⟨hc, ht⟩
  · have hph : m.phase = BufferPhase.CHECKPOINTING := ht (by simp [htask])
    have hcont : m.checkpoint_content = none :=
      content_none_of_inv m ⟨hc, ht⟩ (Or.inr (Or.inr hph))
    rcases t with ⟨done, result⟩
    cases done
    · exact ⟨hc, ht⟩
    · rcases result with _ | s <;>
        simp [exceptPure_eq_ok, mgrState_ok, mgrState_error, mgrBind_ok, mgrBind_error,
              MgrInv, ContentPhaseInv, TaskPhaseInv, htask, hcont, hph,
              BufferManager.tryTrans, transition, validate_transition, VALID_TRANSITIONS]

lemma inv_await (m : BufferManager) (h : MgrInv m) :
    MgrInv (mgrState m.await_checkpoint) := by
  unfold BufferManager.await_checkpoint
  rcases htask : m.checkpoint_task with _ | t
  · exact h
  · have hph : m.phase = BufferPhase.CHECKPOINTING := h.2 (by simp [htask])
    apply inv_finalize
    refine ⟨?_, fun _ => by simpa using hph⟩
    simpa [ContentPhaseInv] using h.1

lemma inv_start (m : BufferManager) (newTask : CheckpointTask) (h : MgrInv m)
    (hph : m.phase = BufferPhase.CHECKPOINT_PENDING) :
    MgrInv (mgrState (m.start_checkpoint newTask)) := by
  have htask : m.checkpoint_task = none :=
    task_none_of_inv m h (by simp [hph])
  have hcont : m.checkpoint_content = none :=
    content_none_of_inv m h (Or.inr (Or.inl hph))
  unfold BufferManager.start_checkpoint
  simp only [htask, Bool.not_false, if_false, reduceIte]
  by_cases hae : (m.auth_headers.isEmpty || m.all_messages.isEmpty)
  · simp only [hae, if_true, reduceIte]
    exact h
  · simp only [hae, if_false, Bool.false_eq_true, reduceIte]
    rcases hanch : find_checkpoint_anchor m.all_messages with _ | a
    · exact h
    · by_cases ha0 : a = 0
      · simp only [ha0, if_true, reduceIte]
        exact h
      · simp only [ha0, if_false, reduceIte,
          BufferManager.tryTrans, transition, validate_transition, VALID_TRANSITIONS, hph]
        have hX : MgrInv ({ m with
            phase := BufferPhase.CHECKPOINTING
            checkpoint_anchor_index := some a
            checkpoint_task := some newTask } : BufferManager) := by
          refine ⟨⟨fun hcc => ?_, fun h2 => ?_⟩, fun _ => rfl⟩
          · exact absurd hcont hcc
          · rcases h2 with h2 | h2 | h2 <;> exact BufferPhase.noConfusion h2
        exact hX

lemma inv_run_blocking (m : BufferManager) (r : Except Unit String) (h : MgrInv m)
    (hph : m.phase = BufferPhase.IDLE) :
    MgrInv (mgrState (m.run_blocking_checkpoint r)) := by
  have hcont : m.checkpoint_content = none := content_none_of_inv m h (Or.inl hph)
  unfold BufferManager.run_blocking_checkpoint
  by_cases hae : (m.auth_headers.isEmpty || m.all_messages.isEmpty)
  · simp only [hae, reduceIte]
    exact h
  · simp only [hae, Bool.false_eq_true, reduceIte]
    rcases hanch : find_checkpoint_anchor m.all_messages with _ | a
    · exact h
    · by_cases ha0 : a = 0
      · simp only [ha0, reduceIte]
        exact h
      · simp only [ha0, reduceIte, hph,
          BufferManager.tryTrans, transition, validate_transition, VALID_TRANSITIONS]
        rcases r with _ | s
        · have hX : MgrInv ({ m with
              phase := BufferPhase.IDLE
              checkpoint_anchor_index := some a } : BufferManager) := by
            refine ⟨⟨fun hcc => absurd hcont hcc, fun h2 => ?_⟩, fun htk => ?_⟩
            · rcases h2 with h2 | h2 | h2 <;> exact BufferPhase.noConfusion h2
            · exact absurd (h.2 htk) (by simp [hph])
          exact hX
        · have hX : MgrInv ({ m with
              phase := BufferPhase.SWAP_READY
              checkpoint_anchor_index := some a
              checkpoint_content := some s
              last_checkpoint_content := some s } : BufferManager) := by
            refine ⟨⟨fun _ => by simp, fun _ => by simp⟩, fun htk => ?_⟩
            exact absurd (h.2 htk) (by simp [hph])
          exact hX

lemma tryTrans_CP_of_idle (m : BufferManager) (hph : m.phase = BufferPhase.IDLE) :
    m.tryTrans BufferPhase.CHECKPOINT_PENDING =
      .ok { m with phase := BufferPhase.CHECKPOINT_PENDING } := by
  unfold BufferManager.tryTrans
  simp [transition, validate_transition, VALID_TRANSITIONS, hph]

lemma inv_evaluate (m : BufferManager) (r : Except Unit String) (tk : CheckpointTask)
    (h : MgrInv m) : MgrInv (mgrState (m.evaluate_thresholds r tk)) := by
  unfold BufferManager.evaluate_thresholds
  by_cases h1 : (m.phase = BufferPhase.IDLE ∧ m.utilization ≥ m.checkpoint_threshold)
  · rw [if_pos h1]
    by_cases h2 : m.utilization ≥ m.swap_threshold
    · rw [if_pos h2]
      exact inv_run_blocking m r h h1.1
    · rw [if_neg h2]
      rw [tryTrans_CP_of_idle m h1.1, mgrBind_ok]
      have hcont : m.checkpoint_content = none := content_none_of_inv m h (Or.inl h1.1)
      refine inv_start _ tk ⟨⟨fun hcc => absurd hcont hcc, fun h9 => ?_⟩, fun htk2 => ?_⟩ rfl
      · rcases h9 with h9 | h9 | h9 <;> exact BufferPhase.noConfusion h9
      · exact absurd (h.2 htk2) (by simp [h1.1])
  · rw [if_neg h1]
    by_cases h3 : (m.phase = BufferPhase.CHECKPOINT_PENDING ∧
        m.utilization ≥ m.swap_threshold)
    · rw [if_pos h3]
      exact inv_bind (inv_start m tk h h3.1) (fun m1 _ hm1 => inv_await m1 hm1)
    · rw [if_neg h3]
      by_cases h4 : (m.phase = BufferPhase.WAL_ACTIVE ∧
          m.utilization ≥ m.swap_threshold)
      · rw [if_pos h4]
        exact inv_tryTrans_SR m h
      · rw [if_neg h4]
        by_cases h5 : m.phase = BufferPhase.CHECKPOINTING
        · rw [if_pos h5]
          by_cases hd : taskDone m.checkpoint_task = true
          · rw [if_pos hd]
            refine inv_bind (inv_finalize m h) ?_
            intro m1 _ hm1
            by_cases h6 : m.utilization ≥ m1.swap_threshold
            · rw [if_pos h6]
              exact inv_tryTrans_SR m1 hm1
            · rw [if_neg h6]
              exact hm1
          · rw [if_neg hd]
            by_cases h6 : m.utilization ≥ m.swap_threshold
            · rw [if_pos h6]
              refine inv_bind (inv_await m h) ?_
              intro m1 _ hm1
              by_cases h7 : ((m1.checkpoint_content.getD "") ≠ "" ∧
                  m1.phase = BufferPhase.WAL_ACTIVE)
              · rw [if_pos h7]
                exact inv_tryTrans_SR m1 hm1
              · rw [if_neg h7]
                exact hm1
            · rw [if_neg h6]
              exact h
        · rw [if_neg h5]
          exact h

lemma exOk_bind {α : Type} (m : BufferManager)
    (f : BufferManager → Except BufferManager α) : (Except.ok m >>= f) = f m := rfl

lemma exErr_bind {α : Type} (m : BufferManager)
    (f : BufferManager → Except BufferManager α) :
    ((Except.error m : Except BufferManager BufferManager) >>= f) = .error m := rfl

lemma inv_execute_swap_state (m : BufferManager) (stream : Bool) (msgId : String)
    (h : MgrInv m) : MgrInv (m.execute_swap_state stream msgId) := by
  unfold BufferManager.execute_swap_state
  by_cases hph : m.phase = BufferPhase.SWAP_READY
  · rw [execute_swap_eq m stream msgId hph]
    exact ⟨⟨fun hcc => absurd rfl hcc,
            fun h2 => by rcases h2 with h2 | h2 | h2 <;> exact BufferPhase.noConfusion h2⟩,
           fun htk => absurd (h.2 htk) (by simp [hph])⟩
  · have hthrow : m.execute_swap stream msgId = .error m := by
      unfold BufferManager.execute_swap
      rw [if_pos hph]
      rfl
    rw [hthrow]
    exact h

lemma inv_clientCompactPromote (m : BufferManager) (h : MgrInv m) :
    MgrInv (mgrState (clientCompactPromote m)) := by
  unfold clientCompactPromote
  by_cases h1 : m.phase = BufferPhase.SWAP_READY
  · rw [if_pos h1]
    exact h
  · rw [if_neg h1]
    by_cases h2 : m.phase = BufferPhase.WAL_ACTIVE
    · rw [if_pos h2]
      exact inv_tryTrans_SR m h
    · rw [if_neg h2]
      exact h

lemma inv_clientCompactAwait (m : BufferManager) (h : MgrInv m) :
    MgrInv (mgrState (clientCompactAwait m)) := by
  unfold clientCompactAwait
  by_cases h1 : m.phase = BufferPhase.CHECKPOINTING
  · rw [if_pos h1]
    refine inv_bind (inv_await m h) ?_
    intro m1 _ hm1
    by_cases h2 : (m1.checkpoint_content.getD "") ≠ ""
    · rw [if_pos h2]
      exact inv_tryTrans_SR m1 hm1
    · rw [if_neg h2]
      exact hm1
  · rw [if_neg h1]
    exact h

lemma inv_client_compact_state (m : BufferManager) (stream : Bool) (msgId : String)
    (h : MgrInv m) : MgrInv (m.handle_client_compact_state stream msgId) := by
  unfold BufferManager.handle_client_compact_state BufferManager.handle_client_compact
  rcases hp : clientCompactPromote m with m1 | m1
  · have := inv_clientCompactPromote m h
    rw [hp] at this
    exact this
  · have h1 : MgrInv m1 := by
      have := inv_clientCompactPromote m h
      rwa [hp] at this
    rw [exOk_bind]
    rcases ha : clientCompactAwait m1 with m2 | m2
    · have := inv_clientCompactAwait m1 h1
      rw [ha] at this
      exact this
    · have h2 : MgrInv m2 := by
        have := inv_clientCompactAwait m1 h1
        rwa [ha] at this
      rw [exOk_bind]
      unfold clientCompactFinish
      by_cases hsr : m2.phase = BufferPhase.SWAP_READY
      · rw [if_pos hsr]
        rw [execute_swap_eq m2 stream msgId hsr]
        exact ⟨⟨fun hcc => absurd rfl hcc,
                fun h3 => by rcases h3 with h3 | h3 | h3 <;> exact BufferPhase.noConfusion h3⟩,
               fun htk => absurd (h2.2 htk) (by simp [hsr])⟩
      · rw [if_neg hsr]
        exact h2

lemma inv_reset (m : BufferManager) : MgrInv (mgrState m.reset) := by
  obtain ⟨cid, mo, cw, ck, sw, ct, ph, tot, cc, cai, task, lcc, lsm, lsa, ah, sys, tl, am⟩ := m
  cases ph <;>
    exact ⟨⟨fun hcc => absurd rfl hcc,
            fun h2 => by rcases h2 with h2 | h2 | h2 <;> exact BufferPhase.noConfusion h2⟩,
           fun htk => absurd rfl htk⟩

lemma inv_promote (m : BufferManager) (h : MgrInv m)
    (hphase : m.phase = BufferPhase.WAL_ACTIVE)
    (hcontent : (m.checkpoint_content.getD "") ≠ "") :
    MgrInv ({ m with phase := BufferPhase.SWAP_READY } : BufferManager) := by
  refine ⟨⟨fun _ => Or.inr (Or.inl rfl), fun _ => ?_⟩, fun htk => ?_⟩
  · simp only
    rcases hcc : m.checkpoint_content with _ | s
    · rw [hcc] at hcontent
      simp at hcontent
    · simp [hcc]
  · exact absurd (h.2 (by simpa using htk)) (by simp [hphase])

lemma inv_init (conv_id model : String) (context_window : Int) (ck sw : Rat) (ct : Int) :
    MgrInv (BufferManager.init conv_id model context_window ck sw ct) := by
  refine ⟨⟨fun hcc => absurd rfl hcc,
           fun h2 => by rcases h2 with h2 | h2 | h2 <;> exact BufferPhase.noConfusion h2⟩,
          fun htk => absurd rfl htk⟩

lemma inv_step {m m' : BufferManager} (h : MgrInv m) (hs : MgrStep m m') : MgrInv m' := by
  cases hs with
  | update_from_request body auth => exact inv_update_from_request m h body auth
  | update_tokens usage => exact inv_update_tokens m h usage
  | evaluate_thresholds r tk => exact inv_evaluate m r tk h
  | finalize_checkpoint => exact inv_finalize m h
  | await_checkpoint => exact inv_await m h
  | execute_swap stream msgId => exact inv_execute_swap_state m stream msgId h
  | handle_client_compact stream msgId => exact inv_client_compact_state m stream msgId h
  | reset => exact inv_reset m
  | set_config ck sw ct => exact inv_set_config m h ck sw ct
  | promote_immediate_swap hphase hcontent hutil => exact inv_promote m h hphase hcontent

lemma inv_reachable {m : BufferManager} (h : MgrReachable m) : MgrInv m := by
  induction h with
  | init conv_id model context_window ck sw ct => exact inv_init conv_id model context_window ck sw ct
  | step _ hs ih => exact inv_step ih hs

/-- C5: in every reachable manager state between operations,
`checkpoint_content` is non-null exactly in the phases `WAL_ACTIVE`,
`SWAP_READY`, `SWAP_EXECUTING`. -/
theorem checkpoint_content_iff_wal_phase (m : BufferManager) (h : MgrReachable m) :
    m.checkpoint_content ≠ none ↔
      (m.phase = BufferPhase.WAL_ACTIVE ∨ m.phase = BufferPhase.SWAP_READY ∨
       m.phase = BufferPhase.SWAP_EXECUTING) :=
  (inv_reachable h).1

/-- C5 witness: the theorem applied to the freshly constructed
manager. -/
theorem checkpoint_content_iff_wal_phase_witness :
    MgrReachable (BufferManager.init "conv" "claude-sonnet-4-6" 200000
      (mkRat 3 5) (mkRat 4 5) 50000) ∧
    ((BufferManager.init "conv" "claude-sonnet-4-6" 200000
        (mkRat 3 5) (mkRat 4 5) 50000).checkpoint_content ≠ none ↔
      ((BufferManager.init "conv" "claude-sonnet-4-6" 200000
          (mkRat 3 5) (mkRat 4 5) 50000).phase = BufferPhase.WAL_ACTIVE ∨
       (BufferManager.init "conv" "claude-sonnet-4-6" 200000
          (mkRat 3 5) (mkRat 4 5) 50000).phase = BufferPhase.SWAP_READY ∨
       (BufferManager.init "conv" "claude-sonnet-4-6" 200000
          (mkRat 3 5) (mkRat 4 5) 50000).phase = BufferPhase.SWAP_EXECUTING)) :=
  ⟨MgrReachable.init "conv" "claude-sonnet-4-6" 200000 (mkRat 3 5) (mkRat 4 5) 50000,
   checkpoint_content_iff_wal_phase _
     (MgrReachable.init "conv" "claude-sonnet-4-6" 200000 (mkRat 3 5) (mkRat 4 5) 50000)⟩

/-! ## C8: SSE serialize/parse round trip

Every event the parser dispatches is well formed (`wfEvent`); well
formed events survive a serialize/re-parse cycle unchanged. -/

lemma splitOnNlGo_nil (cur : List Char) : splitOnNlGo cur [] = [cur.reverse] := rfl

lemma splitOnNlGo_cons (cur : List Char) (c : Char) (tl : List Char) :
    splitOnNlGo cur (c :: tl) =
      if c = '\n' then cur.reverse :: splitOnNlGo [] tl
      else splitOnNlGo (c :: cur) tl := rfl

lemma splitOnNlGo_ne_nil (cur : List Char) (l : List Char) : splitOnNlGo cur l ≠ [] := by
  induction l generalizing cur with
  | nil => simp [splitOnNlGo_nil]
  | cons c tl ih =>
    rw [splitOnNlGo_cons]
    by_cases hc : c = '\n'
    · rw [if_pos hc]; simp
    · rw [if_neg hc]; exact ih (c :: cur)

lemma joinNl_cons (l : List Char) (ls : List (List Char)) (h : ls ≠ []) :
    joinNl (l :: ls) = l ++ '\n' :: joinNl ls := by
  cases ls with
  | nil => exact absurd rfl h
  | cons a as => rfl

lemma joinNl_splitOnNlGo (cur : List Char) (l : List Char) :
    joinNl (splitOnNlGo cur l) = cur.reverse ++ l := by
  induction l generalizing cur with
  | nil => simp [splitOnNlGo_nil, joinNl]
  | cons c tl ih =>
    rw [splitOnNlGo_cons]
    by_cases hc : c = '\n'
    · rw [if_pos hc, joinNl_cons _ _ (splitOnNlGo_ne_nil [] tl), ih []]
      simp [hc]
    · rw [if_neg hc, ih (c :: cur)]
      simp

lemma joinNl_splitOnNl (d : List Char) : joinNl (splitOnNl d) = d := by
  simpa using joinNl_splitOnNlGo [] d

lemma splitOnNlGo_no_nl (cur : List Char) (l : List Char) (hcur : '\n' ∉ cur) :
    ∀ s ∈ splitOnNlGo cur l, '\n' ∉ s := by
  induction l generalizing cur with
  | nil =>
    intro s hs
    rw [splitOnNlGo_nil] at hs
    simp at hs
    subst hs
    simpa using hcur
  | cons c tl ih =>
    intro s hs
    rw [splitOnNlGo_cons] at hs
    by_cases hc : c = '\n'
    · rw [if_pos hc] at hs
      rcases List.mem_cons.mp hs with h | h
      · subst h
        simpa using hcur
      · exact ih [] (by simp) s h
    · rw [if_neg hc] at hs
      exact ih (c :: cur) (by simp [hcur, Ne.symm hc]) s hs

lemma splitOnNl_no_nl (d : List Char) : ∀ s ∈ splitOnNl d, '\n' ∉ s :=
  splitOnNlGo_no_nl [] d (by simp)

lemma splitOnNlGo_append_nl (cur a b : List Char) :
    splitOnNlGo cur (a ++ '\n' :: b) = splitOnNlGo cur a ++ splitOnNlGo [] b := by
  induction a generalizing cur with
  | nil =>
    rw [List.nil_append, splitOnNlGo_cons, if_pos rfl, splitOnNlGo_nil]
    rfl
  | cons c tl ih =>
    rw [List.cons_append, splitOnNlGo_cons, splitOnNlGo_cons]
    by_cases hc : c = '\n'
    · rw [if_pos hc, if_pos hc, ih []]
      rfl
    · rw [if_neg hc, if_neg hc, ih (c :: cur)]

lemma splitOnNl_append_nl (a b : List Char) :
    splitOnNl (a ++ '\n' :: b) = splitOnNl a ++ splitOnNl b :=
  splitOnNlGo_append_nl [] a b

lemma splitOnNlGo_no_nl_eq (cur v : List Char) (hv : '\n' ∉ v) :
    splitOnNlGo cur v = [cur.reverse ++ v] := by
  induction v generalizing cur with
  | nil => simp [splitOnNlGo_nil]
  | cons c tl ih =>
    rw [splitOnNlGo_cons, if_neg (by rintro rfl; exact hv (by simp)),
      ih (c :: cur) (fun h => hv (by simp [h]))]
    simp

lemma splitOnNl_no_nl_eq (v : List Char) (hv : '\n' ∉ v) : splitOnNl v = [v] := by
  simpa using splitOnNlGo_no_nl_eq [] v hv

lemma rstripCr_noop (l : List Char) (h : l.getLast? ≠ some '\r') : rstripCr l = l := by
  cases hr : l.reverse with
  | nil => simp [rstripCr, hr, List.reverse_eq_nil_iff.mp hr]
  | cons c t =>
    have hc : c ≠ '\r' := by
      intro hcc
      apply h
      rw [← List.head?_reverse, hr, hcc]
      rfl
    have hl : l = (c :: t).reverse := by
      rw [← hr, List.reverse_reverse]
    rw [rstripCr, hr, List.dropWhile_cons, if_neg (by simp [hc]), ← hl]

lemma rstripCr_getLast (l : List Char) : (rstripCr l).getLast? ≠ some '\r' := by
  rw [rstripCr, List.getLast?_reverse]
  generalize l.reverse = m
  induction m with
  | nil => simp
  | cons c t ih =>
    rw [List.dropWhile_cons]
    by_cases hc : c = '\r'
    · rw [if_pos (by simp [hc])]
      exact ih
    · rw [if_neg (by simp [hc])]
      simp [hc]

lemma rstripCr_subset (l : List Char) : ∀ c ∈ rstripCr l, c ∈ l := by
  intro c hc
  rw [rstripCr, List.mem_reverse] at hc
  exact List.mem_reverse.mp ((List.dropWhile_sublist _).subset hc)

lemma collectLines_cons_nl (tl : List Char) :
    collectLines ('\n' :: tl) = ([] :: (collectLines tl).1, (collectLines tl).2) := by
  rcases hp : collectLines tl with ⟨ls, rem⟩
  simp [collectLines, hp]

lemma collectLines_line (l t : List Char) (hl : '\n' ∉ l) :
    collectLines (l ++ '\n' :: t) = (l :: (collectLines t).1, (collectLines t).2) := by
  induction l with
  | nil => simpa using collectLines_cons_nl t
  | cons c l' ih =>
    have hc : c ≠ '\n' := by rintro rfl; exact hl (by simp)
    have ih' := ih (fun h => hl (by simp [h]))
    rw [List.cons_append]
    rw [show collectLines (c :: (l' ++ '\n' :: t)) =
      (match collectLines (l' ++ '\n' :: t) with
       | ([], rem) => ([], c :: rem)
       | (a :: as, rem) => ((c :: a) :: as, rem)) by simp [collectLines, hc]]
    rw [ih']

lemma collectLines_flat (L : List (List Char)) (hL : ∀ l ∈ L, '\n' ∉ l) :
    collectLines ((L.map (fun l => l ++ ['\n'])).flatten) = (L, []) := by
  induction L with
  | nil => rfl
  | cons l L' ih =>
    rw [List.map_cons, List.flatten_cons, List.append_assoc,
      show ['\n'] ++ (L'.map (fun l => l ++ ['\n'])).flatten =
        '\n' :: (L'.map (fun l => l ++ ['\n'])).flatten from rfl,
      collectLines_line _ _ (hL l (by simp)),
      ih (fun x hx => hL x (by simp [hx]))]

lemma processLines_cons (cur : SSEEvent) (l : List Char) (ls : List (List Char)) :
    processLines cur (l :: ls) =
      ((processLine cur l).1 ++ (processLines (processLine cur l).2 ls).1,
       (processLines (processLine cur l).2 ls).2) := by
  rcases h1 : processLine cur l with ⟨evs, cur'⟩
  rcases h2 : processLines cur' ls with ⟨evs', cur''⟩
  simp [processLines, h1, h2]

lemma processLines_append (cur : SSEEvent) (a b : List (List Char)) :
    processLines cur (a ++ b) =
      ((processLines cur a).1 ++ (processLines (processLines cur a).2 b).1,
       (processLines (processLines cur a).2 b).2) := by
  induction a generalizing cur with
  | nil => simp [processLines]
  | cons l a' ih =>
    rw [List.cons_append, processLines_cons, ih, processLines_cons, List.append_assoc]

lemma serializeSSE_eq_flat (evs : List SSEEvent) :
    serializeSSE evs =
      (((evs.flatMap SSEEvent.toLines).map (fun l => l ++ ['\n']))).flatten := by
  induction evs with
  | nil => rfl
  | cons e es ih =>
    rw [serializeSSE, List.map_cons, List.flatten_cons, List.flatMap_cons,
      List.map_append, List.flatten_append, ← ih]
    rfl

lemma dropWhile_not_mem {p : Char → Bool} (l : List Char) (h : ∀ c ∈ l, ¬ p c) :
    l.dropWhile p = l := by
  cases l with
  | nil => rfl
  | cons c t =>
    rw [List.dropWhile_cons, if_neg (by simpa using h c (by simp))]

lemma isPyDigit_ne_underscore (c : Char) (h : isPyDigit c) : c ≠ '_' := by
  rintro rfl
  simp [isPyDigit] at h

lemma pyIntGo_cons (acc : Nat) (c : Char) (tl : List Char) :
    pyIntGo acc (c :: tl) =
      if c = '_' then
        (match tl with
         | d :: tl2 =>
           if isPyDigit d then pyIntGo (acc * 10 + digitVal d) tl2 else none
         | [] => none)
      else if isPyDigit c then pyIntGo (acc * 10 + digitVal c) tl else none := by
  cases tl with
  | nil => rfl
  | cons d tl2 => rfl

lemma pyIntGo_digits (acc : Nat) (ds : List Char) (h : ∀ c ∈ ds, isPyDigit c) :
    pyIntGo acc ds = some (ds.foldl (fun a c => a * 10 + digitVal c) acc) := by
  induction ds generalizing acc with
  | nil => rfl
  | cons c tl ih =>
    have hc : isPyDigit c := h c (by simp)
    rw [pyIntGo_cons, if_neg (isPyDigit_ne_underscore c hc), if_pos hc,
      ih _ (fun x hx => h x (by simp [hx]))]
    rfl

lemma digitChar_spec (d : Nat) (hd : d < 10) :
    digitVal (Char.ofNat (48 + d)) = d ∧ isPyDigit (Char.ofNat (48 + d)) := by
  interval_cases d <;> exact ⟨by decide, by decide⟩

lemma natRepr_digits (n : Nat) : ∀ c ∈ natRepr n, isPyDigit c := by
  intro c hc
  rw [natRepr] at hc
  by_cases h : n = 0
  · rw [if_pos h] at hc
    simp at hc
    subst hc
    decide
  · rw [if_neg h] at hc
    rcases List.mem_map.mp hc with ⟨d, hd, rfl⟩
    exact (digitChar_spec d
      (Nat.digits_lt_base (by norm_num) (List.mem_reverse.mp hd))).2

lemma foldr_eq_ofDigits (L : List Nat) :
    L.foldr (fun d a => a * 10 + d) 0 = Nat.ofDigits 10 L := by
  induction L with
  | nil => rfl
  | cons d t ih =>
    rw [List.foldr_cons, ih, Nat.ofDigits_cons]
    ring

lemma natRepr_foldl (n : Nat) :
    (natRepr n).foldl (fun a c => a * 10 + digitVal c) 0 = n := by
  by_cases h : n = 0
  · subst h; decide
  · rw [natRepr, if_neg h, List.foldl_map,
      List.foldl_ext _ (fun (a d : Nat) => a * 10 + d) _
        (fun a d hd => by
          rw [(digitChar_spec d
            (Nat.digits_lt_base (by norm_num) (List.mem_reverse.mp hd))).1]),
      List.foldl_reverse, foldr_eq_ofDigits, Nat.ofDigits_digits]

lemma natRepr_ne_nil (n : Nat) : natRepr n ≠ [] := by
  rw [natRepr]
  by_cases h : n = 0
  · rw [if_pos h]; simp
  · rw [if_neg h]
    simp [Nat.digits_ne_nil_iff_ne_zero, h]

lemma isPyDigit_not_ws (c : Char) (h : isPyDigit c) : ¬ isPyWs c := by
  intro hw
  simp [isPyDigit] at h
  simp [isPyWs] at hw
  rcases hw with ((((h1 | h1) | h1) | h1) | h1) | h1
  · subst h1; revert h; decide
  · subst h1; revert h; decide
  · subst h1; revert h; decide
  · subst h1; revert h; decide
  · omega
  · omega


lemma natRepr_not_sign (n : Nat) :
    listIsPrefix ['-'] (natRepr n) = false ∧ listIsPrefix ['+'] (natRepr n) = false := by
  rcases hnr : natRepr n with _ | ⟨c, t⟩
  · exact absurd hnr (natRepr_ne_nil n)
  · have hc : isPyDigit c := natRepr_digits n c (by rw [hnr]; simp)
    constructor
    · simp [listIsPrefix]
      intro h
      subst h
      revert hc
      decide
    · simp [listIsPrefix]
      intro h
      subst h
      revert hc
      decide

lemma pyInt_natRepr (n : Nat) : pyInt (natRepr n) = some (n : Int) := by
  have hws : ∀ c ∈ natRepr n, ¬ isPyWs c :=
    fun c hc => isPyDigit_not_ws c (natRepr_digits n c hc)
  have h1 : (natRepr n).dropWhile isPyWs = natRepr n := dropWhile_not_mem _ hws
  have h2 : ((natRepr n).reverse.dropWhile isPyWs).reverse = natRepr n := by
    rw [dropWhile_not_mem _ (fun c hc => hws c (List.mem_reverse.mp hc)),
      List.reverse_reverse]
  simp only [pyInt, h1, h2, (natRepr_not_sign n).1, (natRepr_not_sign n).2,
    Bool.or_self, Bool.false_eq_true, if_false]
  rcases hnr : natRepr n with _ | ⟨c, t⟩
  · exact absurd hnr (natRepr_ne_nil n)
  · have hc : isPyDigit c := natRepr_digits n c (by rw [hnr]; simp)
    have hds : ∀ x ∈ t, isPyDigit x :=
      fun x hx => natRepr_digits n x (by rw [hnr]; simp [hx])
    have hfold : t.foldl (fun a c => a * 10 + digitVal c) (digitVal c) = n := by
      have hf := natRepr_foldl n
      rw [hnr, List.foldl_cons] at hf
      simpa using hf
    simp [hc, pyIntGo_digits _ _ hds, hfold]

lemma pyInt_intRepr (n : Int) : pyInt (intRepr n) = some n := by
  by_cases hn : n < 0
  · rw [intRepr, if_pos hn]
    have hws : ∀ c ∈ '-' :: natRepr n.natAbs, ¬ isPyWs c := by
      intro c hc
      rcases List.mem_cons.mp hc with rfl | hm
      · decide
      · exact isPyDigit_not_ws c (natRepr_digits _ c hm)
    have h1 : ('-' :: natRepr n.natAbs).dropWhile isPyWs = '-' :: natRepr n.natAbs :=
      dropWhile_not_mem _ hws
    have h2 : (('-' :: natRepr n.natAbs).reverse.dropWhile isPyWs).reverse =
        '-' :: natRepr n.natAbs := by
      rw [dropWhile_not_mem _ (fun c hc => hws c (List.mem_reverse.mp hc)),
        List.reverse_reverse]
    have hpre : listIsPrefix ['-'] ('-' :: natRepr n.natAbs) = true := by
      simp [listIsPrefix]
    simp only [pyInt, h1, h2, hpre, Bool.true_or, if_true, List.drop_succ_cons,
      List.drop_zero]
    rcases hnr : natRepr n.natAbs with _ | ⟨c, t⟩
    · exact absurd hnr (natRepr_ne_nil _)
    · have hc : isPyDigit c := natRepr_digits _ c (by rw [hnr]; simp)
      have hds : ∀ x ∈ t, isPyDigit x :=
        fun x hx => natRepr_digits _ x (by rw [hnr]; simp [hx])
      have hfold : t.foldl (fun a c => a * 10 + digitVal c) (digitVal c) = n.natAbs := by
        have hf := natRepr_foldl n.natAbs
        rw [hnr, List.foldl_cons] at hf
        simpa using hf
      simp [hc, pyIntGo_digits _ _ hds, hfold]
      rw [abs_of_neg hn, neg_neg]
  · rw [intRepr, if_neg hn, pyInt_natRepr]
    congr 1
    exact Int.toNat_of_nonneg (not_lt.mp hn)

lemma getLast?_cons_ne_nil (c : Char) (l : List Char) (h : l ≠ []) :
    (c :: l).getLast? = l.getLast? := by
  cases l with
  | nil => exact absurd rfl h
  | cons d t => rfl

lemma getLast?_append_ne_nil (l₁ l₂ : List Char) (h : l₂ ≠ []) :
    (l₁ ++ l₂).getLast? = l₂.getLast? := by
  induction l₁ with
  | nil => rfl
  | cons c t ih =>
    rw [List.cons_append, getLast?_cons_ne_nil c _ (by simp [h]), ih]

lemma takeWhile_field (name rest : List Char) (hname : ':' ∉ name) :
    (name ++ ':' :: rest).takeWhile (fun c => c ≠ ':') = name := by
  induction name with
  | nil => simp [List.takeWhile_cons]
  | cons c t ih =>
    rw [List.cons_append, List.takeWhile_cons,
      if_pos (by simp; rintro rfl; exact hname (by simp)),
      ih (fun h => hname (by simp [h]))]

lemma dropWhile_field (name rest : List Char) (hname : ':' ∉ name) :
    (name ++ ':' :: rest).dropWhile (fun c => c ≠ ':') = ':' :: rest := by
  induction name with
  | nil => simp [List.dropWhile_cons]
  | cons c t ih =>
    rw [List.cons_append, List.dropWhile_cons,
      if_pos (by simp; rintro rfl; exact hname (by simp)),
      ih (fun h => hname (by simp [h]))]

lemma contains_colon (name rest : List Char) :
    (name ++ ':' :: rest).contains ':' = true := by
  have : ':' ∈ name ++ ':' :: rest := by simp
  exact List.elem_eq_true_of_mem this

lemma processLine_field (cur : SSEEvent) (name v : List Char)
    (h0 : name ≠ []) (h2 : ':' ∉ name) (hv : v.getLast? ≠ some '\r') :
    processLine cur (name ++ ':' :: ' ' :: v) =
      (if name = "event".toList then ([], { cur with event := v })
       else if name = "data".toList then
         ([], { cur with data :=
                 if !cur.data.isEmpty then cur.data ++ '\n' :: v else v })
       else if name = "id".toList then ([], { cur with id := v })
       else if name = "retry".toList then
         (match pyInt v with
          | some n => ([], { cur with retry := some n })
          | none => ([], cur))
       else ([], cur)) := by
  have hlast : (name ++ ':' :: ' ' :: v).getLast? ≠ some '\r' := by
    rw [getLast?_append_ne_nil _ _ (by simp)]
    cases v with
    | nil => decide
    | cons d t =>
      rw [getLast?_cons_ne_nil _ _ (by simp), getLast?_cons_ne_nil _ _ (by simp)]
      exact hv
  rcases name with _ | ⟨c, t⟩
  · exact absurd rfl h0
  · have hc : c ≠ ':' := by rintro rfl; exact h2 (by simp)
    have hpre : listIsPrefix [':'] ((c :: t) ++ ':' :: ' ' :: v) = false := by
      rw [List.cons_append]
      simp [listIsPrefix, Ne.symm hc]
    simp only [processLine, rstripCr_noop _ hlast, List.cons_append,
      List.isEmpty_cons, hpre, Bool.false_eq_true, if_false,
      ← List.cons_append, contains_colon (c :: t) (' ' :: v),
      takeWhile_field _ _ h2, dropWhile_field _ _ h2, if_true,
      List.drop_succ_cons, List.drop_zero,
      show listIsPrefix [' '] (' ' :: v) = true by simp [listIsPrefix]]
    rw [if_neg (by simp)]

lemma processLine_event_line (cur : SSEEvent) (v : List Char)
    (hv : v.getLast? ≠ some '\r') :
    processLine cur ("event: ".toList ++ v) = ([], { cur with event := v }) := by
  rw [show ("event: ".toList ++ v) = ("event".toList ++ ':' :: ' ' :: v) from rfl,
    processLine_field cur _ v (by decide) (by decide) hv, if_pos rfl]

lemma processLine_data_line (cur : SSEEvent) (v : List Char)
    (hv : v.getLast? ≠ some '\r') :
    processLine cur ("data: ".toList ++ v) =
      ([], { cur with data :=
              if !cur.data.isEmpty then cur.data ++ '\n' :: v else v }) := by
  rw [show ("data: ".toList ++ v) = ("data".toList ++ ':' :: ' ' :: v) from rfl,
    processLine_field cur _ v (by decide) (by decide) hv,
    if_neg (by decide), if_pos rfl]

lemma processLine_id_line (cur : SSEEvent) (v : List Char)
    (hv : v.getLast? ≠ some '\r') :
    processLine cur ("id: ".toList ++ v) = ([], { cur with id := v }) := by
  rw [show ("id: ".toList ++ v) = ("id".toList ++ ':' :: ' ' :: v) from rfl,
    processLine_field cur _ v (by decide) (by decide) hv,
    if_neg (by decide), if_neg (by decide), if_pos rfl]

lemma intRepr_chars (n : Int) : ∀ c ∈ intRepr n, isPyDigit c ∨ c = '-' := by
  intro c hc
  rw [intRepr] at hc
  by_cases hn : n < 0
  · rw [if_pos hn] at hc
    rcases List.mem_cons.mp hc with rfl | hm
    · exact Or.inr rfl
    · exact Or.inl (natRepr_digits _ c hm)
  · rw [if_neg hn] at hc
    exact Or.inl (natRepr_digits _ c hc)

lemma mem_of_getLast?_char (l : List Char) (c : Char) (h : l.getLast? = some c) :
    c ∈ l := by
  induction l with
  | nil => simp at h
  | cons d t ih =>
    cases t with
    | nil =>
      simp at h
      simp [h]
    | cons e s =>
      rw [getLast?_cons_ne_nil _ _ (by simp)] at h
      exact List.mem_cons_of_mem _ (ih h)

lemma intRepr_no_nl (n : Int) : '\n' ∉ intRepr n := by
  intro h
  rcases intRepr_chars n '\n' h with hd | hd
  · revert hd; decide
  · revert hd; decide

lemma intRepr_getLast (n : Int) : (intRepr n).getLast? ≠ some '\r' := by
  intro h
  rcases intRepr_chars n '\r' (mem_of_getLast?_char _ _ h) with hd | hd
  · revert hd; decide
  · revert hd; decide

lemma processLine_retry_line (cur : SSEEvent) (n : Int) :
    processLine cur ("retry: ".toList ++ intRepr n) =
      ([], { cur with retry := some n }) := by
  rw [show ("retry: ".toList ++ intRepr n) =
      ("retry".toList ++ ':' :: ' ' :: intRepr n) from rfl,
    processLine_field cur _ _ (by decide) (by decide) (intRepr_getLast n),
    if_neg (by decide), if_neg (by decide), if_neg (by decide), if_pos rfl,
    pyInt_intRepr]

lemma processLine_blank (cur : SSEEvent) :
    processLine cur [] = (if !cur.is_empty then [cur] else [], {}) := rfl

lemma joinNl_eq_cons_flatMap (s : List Char) (rest : List (List Char)) :
    joinNl (s :: rest) = s ++ rest.flatMap (fun x => '\n' :: x) := by
  induction rest generalizing s with
  | nil => simp [joinNl]
  | cons a as ih =>
    rw [joinNl_cons _ _ (by simp), ih a, List.flatMap_cons]
    simp

lemma processLines_data_lines (cur : SSEEvent) (segs : List (List Char))
    (hsegs : ∀ s ∈ segs, s.getLast? ≠ some '\r') (hcur : cur.data ≠ []) :
    processLines cur (segs.map (fun s => "data: ".toList ++ s)) =
      ([], { cur with data := cur.data ++ segs.flatMap (fun s => '\n' :: s) }) := by
  induction segs generalizing cur with
  | nil => simp [processLines]
  | cons s rest ih =>
    have hne : (!cur.data.isEmpty) = true := by simp [hcur]
    rw [List.map_cons, processLines_cons,
      processLine_data_line cur s (hsegs s (by simp)), if_pos hne]
    have ih' := ih { cur with data := cur.data ++ '\n' :: s }
      (fun x hx => hsegs x (by simp [hx])) (by simp)
    simp only [ih']
    simp [List.flatMap_cons]

lemma processLines_chain (cur cur' cur'' : SSEEvent) (a b : List (List Char))
    (evs evs' : List SSEEvent)
    (ha : processLines cur a = (evs, cur'))
    (hb : processLines cur' b = (evs', cur'')) :
    processLines cur (a ++ b) = (evs ++ evs', cur'') := by
  simp [processLines_append, ha, hb]

lemma processLines_toLines (e : SSEEvent) (he : wfEvent e) :
    processLines {} e.toLines = ([e], {}) := by
  obtain ⟨hne, hev, hid, hdata⟩ := he
  have hA : processLines {}
      (if !e.event.isEmpty then ["event: ".toList ++ e.event] else []) =
      ([], ⟨e.event, [], [], none⟩) := by
    by_cases h : e.event.isEmpty
    · rw [if_neg (by simp [h]), List.isEmpty_iff.mp h]
      rfl
    · rw [if_pos (by simp [h]), processLines_cons,
        processLine_event_line _ e.event hev.2]
      rfl
  have hB : processLines ⟨e.event, [], [], none⟩
      (if !e.data.isEmpty then
        (splitOnNl e.data).map (fun dl => "data: ".toList ++ dl) else []) =
      ([], ⟨e.event, e.data, [], none⟩) := by
    by_cases h : e.data.isEmpty
    · rw [if_neg (by simp [h]), List.isEmpty_iff.mp h]
      rfl
    · have hdne : e.data ≠ [] := fun hx => h (by simp [hx])
      rcases hsp : splitOnNl e.data with _ | ⟨s₀, rest⟩
      · exact absurd hsp (splitOnNlGo_ne_nil [] e.data)
      · have hs₀ : s₀ ≠ [] := by
          rcases hdata.1 with hx | hx
          · exact absurd hx hdne
          · rw [hsp] at hx
            simpa using hx
        have hs₀r : s₀.getLast? ≠ some '\r' :=
          hdata.2 s₀ (by rw [hsp]; simp)
        rw [if_pos (by simp [h]), List.map_cons, processLines_cons,
          processLine_data_line _ s₀ hs₀r, if_neg (by simp)]
        have hrest := processLines_data_lines ⟨e.event, s₀, [], none⟩ rest
          (fun x hx => hdata.2 x (by rw [hsp]; simp [hx])) (by simpa using hs₀)
        simp only [hrest]
        have : s₀ ++ rest.flatMap (fun x => '\n' :: x) = e.data := by
          rw [← joinNl_eq_cons_flatMap, ← hsp, joinNl_splitOnNl]
        simp [this]
  have hC : processLines ⟨e.event, e.data, [], none⟩
      (if !e.id.isEmpty then ["id: ".toList ++ e.id] else []) =
      ([], ⟨e.event, e.data, e.id, none⟩) := by
    by_cases h : e.id.isEmpty
    · rw [if_neg (by simp [h]), List.isEmpty_iff.mp h]
      rfl
    · rw [if_pos (by simp [h]), processLines_cons,
        processLine_id_line _ e.id hid.2]
      rfl
  have hD : processLines ⟨e.event, e.data, e.id, none⟩
      (match e.retry with
       | some n => ["retry: ".toList ++ intRepr n]
       | none => []) =
      ([], ⟨e.event, e.data, e.id, e.retry⟩) := by
    cases hr : e.retry with
    | none => rfl
    | some n =>
      rw [processLines_cons, processLine_retry_line _ n]
      rfl
  have hblank : processLines ⟨e.event, e.data, e.id, e.retry⟩ [[]] =
      ([⟨e.event, e.data, e.id, e.retry⟩], {}) := by
    rw [processLines_cons, processLine_blank]
    have : (!SSEEvent.is_empty ⟨e.event, e.data, e.id, e.retry⟩) = true := by
      rcases hne with hx | hx <;> simp [SSEEvent.is_empty, hx]
    rw [if_pos this]
    rfl
  have hfinal := processLines_chain _ _ _ _ _ _ _
    (processLines_chain _ _ _ _ _ _ _
      (processLines_chain _ _ _ _ _ _ _
        (processLines_chain _ _ _ _ _ _ _ hA hB) hC) hD) hblank
  rw [SSEEvent.toLines]
  simpa using hfinal

lemma wfCur_empty : wfCur {} := by
  refine ⟨⟨by simp, by simp⟩, ⟨by simp, by simp⟩, Or.inl rfl, ?_⟩
  intro s hs
  rw [show splitOnNl ([] : List Char) = [[]] from rfl] at hs
  simp at hs
  subst hs
  simp

lemma suffix_goodVal (line v : List Char) (hnl : '\n' ∉ line)
    (hlast : line.getLast? ≠ some '\r') (hs : v <:+ line) : goodVal v := by
  constructor
  · exact fun h => hnl (hs.subset h)
  · cases hv : v with
    | nil => simp
    | cons c t =>
      rcases hs with ⟨pre, hpre⟩
      rw [← hv]
      rw [← hpre, getLast?_append_ne_nil _ _ (by simp [hv])] at hlast
      exact hlast

lemma goodData_update (dataOld value : List Char) (hd : goodData dataOld)
    (hv : goodVal value) :
    goodData (if !dataOld.isEmpty then dataOld ++ '\n' :: value else value) := by
  by_cases h : dataOld.isEmpty
  · rw [if_neg (by simp [h])]
    constructor
    · by_cases hv0 : value = []
      · exact Or.inl hv0
      · refine Or.inr ?_
        rw [splitOnNl_no_nl_eq value hv.1]
        simpa using hv0
    · intro s hs
      rw [splitOnNl_no_nl_eq value hv.1] at hs
      simp at hs
      subst hs
      exact hv.2
  · rw [if_pos (by simp [h])]
    have hne : dataOld ≠ [] := fun hx => h (by simp [hx])
    constructor
    · refine Or.inr ?_
      rw [splitOnNl_append_nl, splitOnNl_no_nl_eq value hv.1]
      rcases hsp : splitOnNl dataOld with _ | ⟨s₀, rest⟩
      · exact absurd hsp (splitOnNlGo_ne_nil [] dataOld)
      · rcases hd.1 with hx | hx
        · exact absurd hx hne
        · rw [hsp] at hx
          simpa using hx
    · intro s hs
      rw [splitOnNl_append_nl, splitOnNl_no_nl_eq value hv.1] at hs
      rcases List.mem_append.mp hs with hx | hx
      · exact hd.2 s hx
      · simp at hx
        subst hx
        exact hv.2

lemma processLine_wf (cur : SSEEvent) (l : List Char) (hcur : wfCur cur)
    (hl : '\n' ∉ l) :
    (∀ e ∈ (processLine cur l).1, wfEvent e) ∧ wfCur (processLine cur l).2 := by
  have hnl : '\n' ∉ rstripCr l := fun h => hl (rstripCr_subset l _ h)
  have hlast := rstripCr_getLast l
  rw [processLine]
  by_cases he : (rstripCr l).isEmpty
  · rw [if_pos he]
    refine ⟨?_, wfCur_empty⟩
    intro e hee
    by_cases hcc : (!cur.is_empty) = true
    · rw [if_pos hcc] at hee
      simp at hee
      subst hee
      refine ⟨?_, hcur⟩
      simp [SSEEvent.is_empty] at hcc
      rcases hcc with hx | hx
      · exact Or.inl hx
      · exact Or.inr hx
    · rw [if_neg hcc] at hee
      simp at hee
  · rw [if_neg he]
    by_cases hp : listIsPrefix [':'] (rstripCr l) = true
    · rw [if_pos hp]
      exact ⟨by simp, hcur⟩
    · rw [if_neg hp]
      by_cases hco : (rstripCr l).contains ':' = true
      · rw [if_pos hco]
        simp only []
        have hvsuf : ((if listIsPrefix [' ']
              (((rstripCr l).dropWhile (fun c => c ≠ ':')).drop 1) then
              (((rstripCr l).dropWhile (fun c => c ≠ ':')).drop 1).drop 1
            else ((rstripCr l).dropWhile (fun c => c ≠ ':')).drop 1)) <:+ rstripCr l := by
          have h1 : (rstripCr l).dropWhile (fun c => c ≠ ':') <:+ rstripCr l :=
            List.dropWhile_suffix _
          have h2 := List.drop_suffix 1 ((rstripCr l).dropWhile (fun c => c ≠ ':'))
          by_cases hsp : listIsPrefix [' ']
              (((rstripCr l).dropWhile (fun c => c ≠ ':')).drop 1) = true
          · rw [if_pos hsp]
            exact (List.drop_suffix 1 _).trans (h2.trans h1)
          · rw [if_neg hsp]
            exact h2.trans h1
        have hval : goodVal _ := suffix_goodVal _ _ hnl hlast hvsuf
        by_cases h1 : (rstripCr l).takeWhile (fun c => c ≠ ':') = "event".toList
        · rw [if_pos h1]
          exact ⟨by simp, hval, hcur.2.1, hcur.2.2⟩
        · rw [if_neg h1]
          by_cases h2 : (rstripCr l).takeWhile (fun c => c ≠ ':') = "data".toList
          · rw [if_pos h2]
            exact ⟨by simp, hcur.1, hcur.2.1, goodData_update _ _ hcur.2.2 hval⟩
          · rw [if_neg h2]
            by_cases h3 : (rstripCr l).takeWhile (fun c => c ≠ ':') = "id".toList
            · rw [if_pos h3]
              exact ⟨by simp, hcur.1, hval, hcur.2.2⟩
            · rw [if_neg h3]
              by_cases h4 : (rstripCr l).takeWhile (fun c => c ≠ ':') = "retry".toList
              · rw [if_pos h4]
                cases pyInt (if listIsPrefix [' ']
                    (((rstripCr l).dropWhile (fun c => c ≠ ':')).drop 1) then
                    (((rstripCr l).dropWhile (fun c => c ≠ ':')).drop 1).drop 1
                  else ((rstripCr l).dropWhile (fun c => c ≠ ':')).drop 1) with
                | none => exact ⟨by simp, hcur⟩
                | some n => exact ⟨by simp, hcur.1, hcur.2.1, hcur.2.2⟩
              · rw [if_neg h4]
                exact ⟨by simp, hcur⟩
      · rw [if_neg hco]
        simp only []
        by_cases h1 : rstripCr l = "event".toList
        · rw [if_pos h1]
          exact ⟨by simp, ⟨by simp, by simp⟩, hcur.2.1, hcur.2.2⟩
        · rw [if_neg h1]
          by_cases h2 : rstripCr l = "data".toList
          · rw [if_pos h2]
            exact ⟨by simp, hcur.1, hcur.2.1,
              goodData_update _ _ hcur.2.2 ⟨by simp, by simp⟩⟩
          · rw [if_neg h2]
            by_cases h3 : rstripCr l = "id".toList
            · rw [if_pos h3]
              exact ⟨by simp, hcur.1, ⟨by simp, by simp⟩, hcur.2.2⟩
            · rw [if_neg h3]
              by_cases h4 : rstripCr l = "retry".toList
              · rw [if_pos h4]
                cases pyInt [] with
                | none => exact ⟨by simp, hcur⟩
                | some n => exact ⟨by simp, hcur.1, hcur.2.1, hcur.2.2⟩
              · rw [if_neg h4]
                exact ⟨by simp, hcur⟩

lemma collectLines_cons_ne (c : Char) (tl : List Char) (hc : c ≠ '\n') :
    collectLines (c :: tl) =
      match collectLines tl with
      | ([], rem) => ([], c :: rem)
      | (a :: as, rem) => ((c :: a) :: as, rem) := by
  simp [collectLines, hc]

lemma collectLines_no_nl (s : List Char) : ∀ l ∈ (collectLines s).1, '\n' ∉ l := by
  induction s with
  | nil => simp [collectLines]
  | cons c tl ih =>
    intro l hl
    by_cases hc : c = '\n'
    · subst hc
      rw [collectLines_cons_nl] at hl
      rcases List.mem_cons.mp hl with rfl | hm
      · simp
      · exact ih l hm
    · rw [collectLines_cons_ne c tl hc] at hl
      rcases hct : collectLines tl with ⟨ls, rem⟩
      rw [hct] at hl
      cases ls with
      | nil => simp at hl
      | cons a as =>
        rcases List.mem_cons.mp hl with rfl | hm
        · intro hmem
          rcases List.mem_cons.mp hmem with h | h
          · exact hc h.symm
          · exact ih a (by rw [hct]; simp) h
        · exact ih l (by rw [hct]; simp [hm])

lemma toLines_no_nl (e : SSEEvent) (he : wfEvent e) : ∀ l ∈ e.toLines, '\n' ∉ l := by
  intro l hl
  rw [SSEEvent.toLines] at hl
  rcases List.mem_append.mp hl with h | h
  · rcases List.mem_append.mp h with h | h
    · rcases List.mem_append.mp h with h | h
      · rcases List.mem_append.mp h with h | h
        · by_cases hc : !e.event.isEmpty
          · rw [if_pos hc] at h
            simp at h
            subst h
            intro hmem
            rcases List.mem_append.mp
                (show '\n' ∈ "event: ".toList ++ e.event from hmem) with hx | hx
            · revert hx; decide
            · exact he.2.1.1 hx
          · rw [if_neg hc] at h
            simp at h
        · by_cases hc : !e.data.isEmpty
          · rw [if_pos hc] at h
            rcases List.mem_map.mp h with ⟨s, hs, rfl⟩
            intro hmem
            rcases List.mem_append.mp hmem with hx | hx
            · revert hx; decide
            · exact splitOnNl_no_nl e.data s hs hx
          · rw [if_neg hc] at h
            simp at h
      · by_cases hc : !e.id.isEmpty
        · rw [if_pos hc] at h
          simp at h
          subst h
          intro hmem
          rcases List.mem_append.mp
              (show '\n' ∈ "id: ".toList ++ e.id from hmem) with hx | hx
          · revert hx; decide
          · exact he.2.2.1.1 hx
        · rw [if_neg hc] at h
          simp at h
    · cases hr : e.retry with
      | none =>
        rw [hr] at h
        simp at h
      | some n =>
        rw [hr] at h
        simp at h
        subst h
        intro hmem
        rcases List.mem_append.mp
            (show '\n' ∈ "retry: ".toList ++ intRepr n from hmem) with hx | hx
        · revert hx; decide
        · exact intRepr_no_nl n hx
  · simp at h
    subst h
    simp

lemma processLines_wf (lines : List (List Char)) (cur : SSEEvent)
    (hcur : wfCur cur) (hl : ∀ l ∈ lines, '\n' ∉ l) :
    (∀ e ∈ (processLines cur lines).1, wfEvent e) ∧
      wfCur (processLines cur lines).2 := by
  induction lines generalizing cur with
  | nil => exact ⟨by simp [processLines], hcur⟩
  | cons l ls ih =>
    obtain ⟨h1, h2⟩ := processLine_wf cur l hcur (hl l (by simp))
    obtain ⟨h3, h4⟩ := ih (processLine cur l).2 h2 (fun x hx => hl x (by simp [hx]))
    rw [processLines_cons]
    refine ⟨?_, h4⟩
    intro e hee
    rcases List.mem_append.mp hee with hx | hx
    · exact h1 e hx
    · exact h3 e hx

lemma parseSSE_eq (S : List Char) :
    parseSSE S = (processLines {} (collectLines S).1).1 := rfl

lemma parseSSE_wf (S : List Char) : ∀ e ∈ parseSSE S, wfEvent e := by
  rw [parseSSE_eq]
  exact (processLines_wf _ _ wfCur_empty (collectLines_no_nl S)).1

lemma processLines_flatMap (evs : List SSEEvent) (h : ∀ e ∈ evs, wfEvent e) :
    processLines {} (evs.flatMap SSEEvent.toLines) = (evs, {}) := by
  induction evs with
  | nil => rfl
  | cons e es ih =>
    rw [List.flatMap_cons]
    have := processLines_chain _ _ _ _ _ _ _
      (processLines_toLines e (h e (by simp)))
      (ih (fun x hx => h x (by simp [hx])))
    simpa using this

lemma parse_serialize (evs : List SSEEvent) (h : ∀ e ∈ evs, wfEvent e) :
    parseSSE (serializeSSE evs) = evs := by
  have hlines : ∀ l ∈ evs.flatMap SSEEvent.toLines, '\n' ∉ l := by
    intro l hl
    rcases List.mem_flatMap.mp hl with ⟨e, he, hle⟩
    exact toLines_no_nl e (h e he) l hle
  rw [serializeSSE_eq_flat, parseSSE_eq]
  simp only [collectLines_flat _ hlines, processLines_flatMap evs h]

/-- C8: for every SSE stream `S`, serializing the events the parser
dispatches for `S` with `SSEEvent.to_bytes` and feeding the result to a
fresh parser dispatches the same events in the same order. -/
theorem sse_parse_serialize_roundtrip (S : List Char) :
    parseSSE (serializeSSE (parseSSE S)) = parseSSE S :=
  parse_serialize (parseSSE S) (parseSSE_wf S)
